import Mathlib

/-!
Shallow embedding of the 3D-Farm coordinator core
(`app/services/job_service.py`, `app/services/inventory_service.py`,
`app/services/failure_detection.py` and the entity models under
`app/models/`).  Floats are modelled as rationals, timestamps as rational
seconds, and the SQLAlchemy session as an explicit record of entity lists.
Each service method becomes a state-passing function returning the new
database together with its result value.
-/

namespace Farm3D

/-- Python `int(x)` on a float: truncation toward zero. -/
def pyInt (q : ℚ) : ℤ := if 0 ≤ q then ⌊q⌋ else ⌈q⌉

/-- Python truthiness of an optional float (`None` and `0.0` are falsy). -/
def qTruthy : Option ℚ → Bool
  | none => false
  | some x => x != 0

/-- Python truthiness of an optional string (`None` and `""` are falsy). -/
def sTruthy : Option String → Bool
  | none => false
  | some s => s != ""

/-- Python `x or d` on an optional int: `None` and `0` give the default. -/
def pyOrNat (x : Option Nat) (d : Nat) : Nat :=
  match x with
  | none => d
  | some n => if n = 0 then d else n

/-- Python `x or 0.0` on an optional float: value-wise `getD 0`. -/
def pyOrZero (x : Option ℚ) : ℚ := x.getD 0

/-- `app/models/printer.py` `Printer` (fields the coordinator reads). -/
structure Printer where
  status : String
  is_active : Bool
deriving DecidableEq

/-- `app/models/inventory.py` `Spool` (fields the coordinator reads). -/
structure Spool where
  material_type : String
  total_weight_g : ℚ
  remaining_weight_g : ℚ
  usage_percentage : ℚ
  is_active : Bool
  is_low_inventory : Bool
deriving DecidableEq

/-- `app/models/job.py` `PrintJob` (fields the coordinator reads). -/
structure PrintJob where
  job_id : String
  printer_id : Nat
  status : String
  spool_id : Option String
  material_g : Option ℚ
  progress_percentage : ℚ
  current_layer : Nat
  start_time : Option ℚ
  end_time : Option ℚ
  estimated_time_min : Option Nat
  actual_time_min : Option ℤ
deriving DecidableEq

/-- `app/models/job.py` `FailureEvent`. -/
structure FailureEvent where
  job_id : String
  failure_type : String
  confidence_score : ℚ
  image_path : String
deriving DecidableEq

/-- `app/models/inventory.py` `InventoryAlert`. -/
structure InventoryAlert where
  spool_id : String
  alert_type : String
  threshold_percentage : ℚ
  current_percentage : ℚ
  message : String
  is_resolved : Bool
deriving DecidableEq

/-- The database session: printers keyed by primary key, spools keyed by
their unique `spool_id` code, alerts keyed by list position. -/
structure DB where
  printers : List (Nat × Printer)
  spools : List (String × Spool)
  jobs : List PrintJob
  alerts : List InventoryAlert
  events : List FailureEvent
deriving DecidableEq

/-- `db.query(Printer).filter(Printer.id == pid).first()`. -/
def findPrinter (db : DB) (pid : Nat) : Option Printer :=
  (db.printers.find? (fun pr => pr.1 == pid)).map Prod.snd

/-- `db.query(Spool).filter(Spool.spool_id == sid).first()` (`_get_spool`). -/
def findSpool (db : DB) (sid : String) : Option Spool :=
  (db.spools.find? (fun sp => sp.1 == sid)).map Prod.snd

/-- `db.query(PrintJob).filter(PrintJob.job_id == jid).first()` (`_get_job`). -/
def findJob (db : DB) (jid : String) : Option PrintJob :=
  db.jobs.find? (fun j => j.job_id == jid)

/-- Write back a mutated printer row. -/
def setPrinter (db : DB) (pid : Nat) (p : Printer) : DB :=
  { db with printers := db.printers.map (fun pr => if pr.1 == pid then (pr.1, p) else pr) }

/-- Write back a mutated spool row. -/
def setSpool (db : DB) (sid : String) (s : Spool) : DB :=
  { db with spools := db.spools.map (fun sp => if sp.1 == sid then (sp.1, s) else sp) }

/-- Write back a mutated job row. -/
def setJob (db : DB) (jid : String) (j : PrintJob) : DB :=
  { db with jobs := db.jobs.map (fun x => if x.job_id == jid then j else x) }

/-- `settings.inventory_alert_threshold` (`app/core/config.py`, default 0.15). -/
def inventory_alert_threshold : ℚ := 15 / 100

/-- `settings.failure_detection_threshold` (`app/core/config.py`, default 0.7). -/
def failure_detection_threshold : ℚ := 7 / 10

/-- `InventoryService.ensure_alert`: insert an alert unless an unresolved
alert of the same `(spool_id, alert_type)` already exists; otherwise no-op.
`threshold_percentage or 0.0` is value-equal to `getD 0`. -/
def ensure_alert (db : DB) (sid alert_type message : String)
    (threshold_percentage current_percentage : Option ℚ) : DB :=
  if db.alerts.any (fun a =>
      a.spool_id == sid && a.alert_type == alert_type && !a.is_resolved) then db
  else
    let a : InventoryAlert :=
      { spool_id := sid, alert_type := alert_type,
        threshold_percentage := threshold_percentage.getD 0,
        current_percentage := current_percentage.getD 0,
        message := message, is_resolved := false }
    { db with alerts := db.alerts ++ [a] }

/-- `InventoryService._create_inventory_alert`: unconditional insert of a
`low_inventory` alert. -/
def create_inventory_alert (db : DB) (sid : String) (remaining_percentage : ℚ) : DB :=
  let a : InventoryAlert :=
    { spool_id := sid, alert_type := "low_inventory",
      threshold_percentage := inventory_alert_threshold,
      current_percentage := remaining_percentage,
      message := "spool is running low", is_resolved := false }
  { db with alerts := db.alerts ++ [a] }

/-- `InventoryService.update_spool_usage` (ConsumeMaterial).  A spool with
`total_weight_g = 0` makes the source raise `ZeroDivisionError`, which the
handler catches and rolls back; the explicit guard models that branch. -/
def update_spool_usage (db : DB) (sid : String) (material_used_g : ℚ) : DB × Bool :=
  match findSpool db sid with
  | none => (db, false)
  | some spool =>
    if spool.total_weight_g == 0 then (db, false)
    else
      let rem := max 0 (spool.remaining_weight_g - material_used_g)
      let usage := (spool.total_weight_g - rem) / spool.total_weight_g
      let remaining_percentage := rem / spool.total_weight_g
      let was_low := spool.is_low_inventory
      let now_low := decide (remaining_percentage ≤ inventory_alert_threshold)
      let spool1 : Spool :=
        { spool with
          remaining_weight_g := rem,
          usage_percentage := usage, is_low_inventory := now_low }
      let db1 := setSpool db sid spool1
      let db2 := if now_low && !was_low then
          create_inventory_alert db1 sid remaining_percentage else db1
      let active_jobs := db2.jobs.filter (fun j =>
          j.spool_id == some sid && j.status == "printing")
      let db3 := active_jobs.foldl (fun d j =>
          match j.material_g with
          | none => d
          | some m =>
            let progress := j.progress_percentage
            let remaining_needed := max 0 (m * (1 - progress / 100))
            if rem < remaining_needed then
              ensure_alert d sid "insufficient_material"
                "spool may not complete job" none none
            else d) db2
      (db3, true)

/-- `InventoryService.resolve_alert`: alert rows are keyed here by list
position (the autoincrement row id). -/
def resolve_alert (db : DB) (idx : Nat) : DB × Bool :=
  match db.alerts.get? idx with
  | none => (db, false)
  | some a => ({ db with alerts := db.alerts.set idx { a with is_resolved := true } }, true)

/-- `InventoryService.create_spool`; the unique constraint on `spool_id`
makes a duplicate insert fail and roll back. -/
def create_spool (db : DB) (sid material_type : String) (total_weight_g : ℚ) : DB × Bool :=
  if db.spools.any (fun sp => sp.1 == sid) then (db, false)
  else
    let s : Spool :=
      { material_type := material_type,
        total_weight_g := total_weight_g, remaining_weight_g := total_weight_g,
        usage_percentage := 0, is_active := true, is_low_inventory := false }
    ({ db with spools := db.spools ++ [(sid, s)] }, true)

/-- `FailureDetector.detect_failure`: fold the `(failure_type, confidence)`
scoring results to the maximum-confidence pair (strict `>` keeps the first
maximum), starting from `(0.0, "none")`; failure iff that maximum strictly
exceeds the configured threshold.  Returns `(is_failure, confidence,
failure_type)`. -/
def detect_failure (results : List (String × ℚ)) : Bool × ℚ × String :=
  let mf := results.foldl (fun acc r => if r.2 > acc.1 then (r.2, r.1) else acc) (0, "none")
  (decide (mf.1 > failure_detection_threshold), mf.1, mf.2)

/-- The maximum confidence over the scoring results (floored at the 0.0
starting accumulator). -/
def maxConfidence (results : List (String × ℚ)) : ℚ :=
  results.foldl (fun m r => max m r.2) 0

/-- `JobService.create_job`.  The uuid-generated job code is passed
explicitly; the unique constraint on `job_id` makes a duplicate insert fail
and roll back (modelled by the freshness guard). -/
def create_job (db : DB) (printer_id : Nat) (job_id : String)
    (estimated_time_min : Option Nat) (material_g : Option ℚ)
    (spool_id : Option String) : DB × Bool :=
  match findPrinter db printer_id with
  | none => (db, false)
  | some printer =>
    if printer.status != "idle" || !printer.is_active then (db, false)
    else if sTruthy spool_id && !(findSpool db (spool_id.getD "")).isSome then (db, false)
    else if db.jobs.any (fun j => j.job_id == job_id) then (db, false)
    else
      let j : PrintJob :=
        { job_id := job_id, printer_id := printer_id,
          status := "queued", spool_id := spool_id, material_g := material_g,
          progress_percentage := 0, current_layer := 0, start_time := none,
          end_time := none, estimated_time_min := estimated_time_min,
          actual_time_min := none }
      ({ db with jobs := db.jobs ++ [j] }, true)

/-- The success tail of `JobService.start_job` (source lines 159-185): set
the job and printer to printing and run the pre-calc insufficient-material
alert check. -/
def start_job_commit (db : DB) (job : PrintJob) (now : ℚ) : DB × Bool :=
  let db1 := setJob db job.job_id { job with status := "printing", start_time := some now }
  let db2 := match findPrinter db1 job.printer_id with
    | some p => setPrinter db1 job.printer_id { p with status := "printing" }
    | none => db1
  let db3 :=
    if sTruthy job.spool_id && qTruthy job.material_g then
      let sid := job.spool_id.getD ""
      let m := job.material_g.getD 0
      match findSpool db2 sid with
      | some spool =>
        if spool.remaining_weight_g < m then
          ensure_alert db2 sid "insufficient_material"
            "spool has insufficient material for job" none none
        else db2
      | none => db2
    else db2
  (db3, true)

/-- `JobService.start_job`. -/
def start_job (db : DB) (job_id : String) (now : ℚ) : DB × Bool :=
  match findJob db job_id with
  | none => (db, false)
  | some job =>
    if job.status != "queued" then (db, false)
    else
      match findPrinter db job.printer_id with
      | none => (db, false)
      | some printer =>
        if printer.status == "printing" then (db, false)
        else if sTruthy job.spool_id then
          let sid := job.spool_id.getD ""
          match (db.spools.find? (fun sp => sp.1 == sid && sp.2.is_active)).map Prod.snd with
          | none => (db, false)
          | some spool =>
            let insufficient := match job.material_g with
              | none => false
              | some m => decide (spool.remaining_weight_g < m)
            if insufficient then
              (ensure_alert db sid "insufficient_material"
                "spool has insufficient material for job" none none, false)
            else if db.jobs.any (fun j =>
                j.spool_id == some sid && j.status == "printing") then (db, false)
            else start_job_commit db job now
        else start_job_commit db job now

/-- The job row written back by `update_job_progress`: clamped progress and
the given layer stored unconditionally. -/
def update_job_progress_row (job : PrintJob) (progress_percentage : ℚ)
    (current_layer : Option Nat) : PrintJob :=
  { job with
    progress_percentage := max 0 (min 100 progress_percentage),
    current_layer := current_layer.getD job.current_layer }

/-- `JobService.update_job_progress`. -/
def update_job_progress (db : DB) (job_id : String) (progress_percentage : ℚ)
    (current_layer : Option Nat) : DB × Bool :=
  match findJob db job_id with
  | none => (db, false)
  | some job =>
    let previous_progress := job.progress_percentage
    let new_progress := max 0 (min 100 progress_percentage)
    let delta := new_progress - previous_progress
    let db1 :=
      if decide (delta > 0) && sTruthy job.spool_id && qTruthy job.material_g then
        let sid := job.spool_id.getD ""
        let m := job.material_g.getD 0
        let material_used_delta := m * (delta / 100)
        let d := (update_spool_usage db sid material_used_delta).1
        match findSpool d sid with
        | some spool =>
          let remaining_needed := max 0 (m * (1 - new_progress / 100))
          if spool.remaining_weight_g < remaining_needed then
            ensure_alert d sid "insufficient_material"
              "spool may not complete job" none none
          else d
        | none => d
      else db
    (setJob db1 job_id (update_job_progress_row job progress_percentage current_layer), true)

/-- The job row written back by `complete_job`: terminal status, end time,
and `actual_time_min = int(duration.total_seconds() / 60)` when the job had
a start time. -/
def complete_job_row (job : PrintJob) (success : Bool) (now : ℚ) : PrintJob :=
  let job1 : PrintJob :=
    { job with
      status := if success then "completed" else "failed",
      end_time := some now }
  match job.start_time with
  | some st => { job1 with actual_time_min := some (pyInt ((now - st) / 60)) }
  | none => job1

/-- `JobService.complete_job`. -/
def complete_job (db : DB) (job_id : String) (success : Bool) (now : ℚ) : DB × Bool :=
  match findJob db job_id with
  | none => (db, false)
  | some job =>
    let db1 := setJob db job_id (complete_job_row job success now)
    let db2 := match findPrinter db1 job.printer_id with
      | some p => setPrinter db1 job.printer_id { p with status := "idle" }
      | none => db1
    let db3 :=
      if success && sTruthy job.spool_id && qTruthy job.material_g then
        let m := job.material_g.getD 0
        let used_so_far := job.progress_percentage / 100 * m
        let remaining := max 0 (m - used_so_far)
        if remaining > 0 then (update_spool_usage db2 (job.spool_id.getD "") remaining).1
        else db2
      else db2
    (db3, true)

/-- The material-reconciliation prelude of `detect_failure_from_image`
(source lines 300-323): charge up to the last 30 seconds of proportional
usage to the spool before the job is marked failed. -/
def detect_failure_consume (db : DB) (job : PrintJob) (now : ℚ) : DB :=
  if sTruthy job.spool_id && qTruthy job.material_g then
    let sid := job.spool_id.getD ""
    let m := job.material_g.getD 0
    let total_minutes := pyOrNat job.estimated_time_min 60
    let seconds_total : ℚ := max (total_minutes * 60 : ℕ) 1
    let elapsed_s : ℤ := match job.start_time with
      | some st => pyInt (now - st)
      | none => 30
    let window_s : ℤ := min 30 (max elapsed_s 0)
    let used_g : ℚ := m * (window_s : ℚ) / seconds_total
    if used_g > 0 then (update_spool_usage db sid used_g).1 else db
  else db

/-- `JobService.detect_failure_from_image`.  The camera frame is abstracted
to the scoring collaborator's result list. -/
def detect_failure_from_image (db : DB) (job_id : String)
    (results : List (String × ℚ)) (image_path : String) (now : ℚ) :
    DB × Option FailureEvent :=
  match findJob db job_id with
  | none => (db, none)
  | some job =>
    let r := detect_failure results
    if r.1 then
      let db1 := detect_failure_consume db job now
      let ev : FailureEvent :=
        { job_id := job_id, failure_type := r.2.2,
          confidence_score := r.2.1, image_path := image_path }
      let db2 := { db1 with events := db1.events ++ [ev] }
      let db3 := setJob db2 job_id { job with status := "failed", end_time := some now }
      let db4 := match findPrinter db3 job.printer_id with
        | some p => setPrinter db3 job.printer_id { p with status := "error" }
        | none => db3
      let db5 :=
        if sTruthy job.spool_id then
          let sid := job.spool_id.getD ""
          match findSpool db4 sid with
          | some sp => setSpool db4 sid { sp with is_active := false }
          | none => db4
        else db4
      (db5, some ev)
    else (db, none)

/-- `JobService.delete_job`: only queued jobs are deleted. -/
def delete_job (db : DB) (job_id : String) : DB × Bool :=
  match findJob db job_id with
  | none => (db, false)
  | some job =>
    if job.status != "queued" then (db, false)
    else ({ db with jobs := db.jobs.filter (fun j => !(j.job_id == job_id)) }, true)

/-- The `create_printer` endpoint (`app/api/v1/endpoints/printers.py`): a
new printer row with the model defaults `status="idle"`, `is_active=True`;
the generated primary key is passed explicitly and must be fresh. -/
def create_printer (db : DB) (printer_id : Nat) : DB × Bool :=
  if db.printers.any (fun pr => pr.1 == printer_id) then (db, false)
  else ({ db with printers := db.printers ++
      [(printer_id, { status := "idle", is_active := true })] }, true)

/-- One invocation of a coordinator operation, with all of the caller's
nondeterminism (generated codes, clock readings, scoring results) given as
explicit arguments. -/
inductive Op where
  | createPrinter (printer_id : Nat)
  | createSpool (sid material_type : String) (total_weight_g : ℚ)
  | createJob (printer_id : Nat) (job_id : String) (est : Option Nat)
      (material_g : Option ℚ) (spool_id : Option String)
  | startJob (job_id : String) (now : ℚ)
  | updateProgress (job_id : String) (p : ℚ) (layer : Option Nat)
  | completeJob (job_id : String) (success : Bool) (now : ℚ)
  | detectFailure (job_id : String) (results : List (String × ℚ))
      (image_path : String) (now : ℚ)
  | deleteJob (job_id : String)
  | resolveAlert (idx : Nat)

/-- The state transition of one operation (its returned value dropped). -/
def applyOp (db : DB) : Op → DB
  | .createPrinter pid => (create_printer db pid).1
  | .createSpool sid mt total => (create_spool db sid mt total).1
  | .createJob pid jid est mg sid => (create_job db pid jid est mg sid).1
  | .startJob jid now => (start_job db jid now).1
  | .updateProgress jid p layer => (update_job_progress db jid p layer).1
  | .completeJob jid success now => (complete_job db jid success now).1
  | .detectFailure jid results path now =>
      (detect_failure_from_image db jid results path now).1
  | .deleteJob jid => (delete_job db jid).1
  | .resolveAlert idx => (resolve_alert db idx).1

/-- States reachable through coordinator operations whose invocations all
satisfy the side condition `G`. -/
inductive ReachableW (G : DB → Op → Prop) : DB → DB → Prop where
  | refl (db : DB) : ReachableW G db db
  | step {a b : DB} (op : Op) : ReachableW G a b → G b op → ReachableW G a (applyOp b op)

/-- Side condition for the printing-only discipline: `complete_job` and
`detect_failure_from_image` are invoked only on jobs currently printing. -/
def printingOnly (db : DB) (op : Op) : Prop :=
  match op with
  | .completeJob jid _ _ => ∀ j, findJob db jid = some j → j.status = "printing"
  | .detectFailure jid _ _ _ => ∀ j, findJob db jid = some j → j.status = "printing"
  | _ => True

/-- Side condition: jobs are only created with nonnegative declared
material requirements. -/
def nonnegMaterial (db : DB) (op : Op) : Prop :=
  match op with
  | .createJob _ _ _ mg _ => ∀ m, mg = some m → 0 ≤ m
  | _ => True

/-- Unconstrained invocations. -/
def anyCall (_ : DB) (_ : Op) : Prop := True

/-- The number of jobs with status `"printing"` referencing printer `pid`. -/
def countPrinting (db : DB) (pid : Nat) : Nat :=
  db.jobs.countP (fun j => j.printer_id == pid && j.status == "printing")

/-- The claimed exclusivity property: a printer's status is `"printing"`
iff exactly one printing job references it. -/
def printerExclusive (db : DB) : Prop :=
  ∀ pr ∈ db.printers, (pr.2.status = "printing" ↔ countPrinting db pr.1 = 1)

/-- The inductive form of exclusivity: the printing-job count of each
printer is 1 when its status is `"printing"` and 0 otherwise. -/
def strongExclusive (db : DB) : Prop :=
  ∀ pr ∈ db.printers, countPrinting db pr.1 = if pr.2.status = "printing" then 1 else 0

/-- Structural well-formedness maintained by the database constraints:
unique job codes, unique printer keys, and jobs referencing existing
printers. -/
def jobsWellFormed (db : DB) : Prop :=
  (db.jobs.map PrintJob.job_id).Nodup ∧
  (db.printers.map Prod.fst).Nodup ∧
  ∀ j ∈ db.jobs, j.printer_id ∈ db.printers.map Prod.fst

/-- Inductive invariant for the printer-exclusivity claim. -/
def InvC1 (db : DB) : Prop := jobsWellFormed db ∧ strongExclusive db

/-- The number of unresolved alerts of one `(spool code, alert_type)` key. -/
def unresolvedCount (db : DB) (sid t : String) : Nat :=
  db.alerts.countP (fun a => a.spool_id == sid && a.alert_type == t && !a.is_resolved)

/-- The claimed alert-deduplication property: at most one unresolved alert
per `(spool code, alert_type)` pair. -/
def alertDedup (db : DB) : Prop := ∀ sid t, unresolvedCount db sid t ≤ 1

/-- Inductive invariant for the alert-deduplication claim: dedup itself,
every unresolved `low_inventory` alert backed by a spool whose
`is_low_inventory` flag is set, that flag truthful about the threshold
comparison, and all declared job material requirements nonnegative. -/
def InvC6 (db : DB) : Prop :=
  alertDedup db ∧
  (∀ a ∈ db.alerts, a.is_resolved = false → a.alert_type = "low_inventory" →
    ∃ sp, findSpool db a.spool_id = some sp ∧ sp.is_low_inventory = true) ∧
  (∀ sp ∈ db.spools, sp.2.is_low_inventory = true →
    sp.2.remaining_weight_g / sp.2.total_weight_g ≤ inventory_alert_threshold ∧
    0 ≤ sp.2.remaining_weight_g) ∧
  (∀ j ∈ db.jobs, ∀ m, j.material_g = some m → 0 ≤ m)

/-- One progress tick of the material ledger, distilled from
`update_job_progress` (source lines 203-207): the state is the stored
progress paired with the total grams consumed on the job's behalf. -/
def progress_tick (m : ℚ) (st : ℚ × ℚ) (input : ℚ) : ℚ × ℚ :=
  let new_progress := max 0 (min 100 input)
  let delta := new_progress - st.1
  (new_progress, if delta > 0 then st.2 + m * (delta / 100) else st.2)

/-- Run a sequence of reported progress values from the initial state
(progress 0, nothing consumed). -/
def run_ticks (m : ℚ) (inputs : List ℚ) : ℚ × ℚ :=
  inputs.foldl (progress_tick m) (0, 0)

/-- The completion remainder consumed by `complete_job(success=True)`
(source lines 270-273). -/
def completion_remainder (m : ℚ) (progress : ℚ) : ℚ :=
  max 0 (m - progress / 100 * m)

/-- Total material consumed on the job's behalf across its life: the
progress-tick increments plus the completion remainder. -/
def total_life_consumption (m : ℚ) (inputs : List ℚ) : ℚ :=
  (run_ticks m inputs).2 + completion_remainder m (run_ticks m inputs).1

instance (db : DB) : Decidable (printerExclusive db) := by
  unfold printerExclusive
  infer_instance

instance (db : DB) : Decidable (strongExclusive db) := by
  unfold strongExclusive
  infer_instance

instance (db : DB) : Decidable (jobsWellFormed db) := by
  unfold jobsWellFormed
  infer_instance

instance (db : DB) : Decidable (InvC1 db) := by
  unfold InvC1
  infer_instance

/-- A queued job on printer 1 used by the concrete scenarios. -/
def baseJob : PrintJob :=
  { job_id := "J", printer_id := 1, status := "queued", spool_id := none,
    material_g := none, progress_percentage := 0, current_layer := 0,
    start_time := none, end_time := none, estimated_time_min := none,
    actual_time_min := none }

/-- A fresh 1000 g spool used by the concrete scenarios. -/
def baseSpool : Spool :=
  { material_type := "PLA", total_weight_g := 1000, remaining_weight_g := 1000,
    usage_percentage := 0, is_active := true, is_low_inventory := false }

/-- The empty database. -/
def dbEmpty : DB := { printers := [], spools := [], jobs := [], alerts := [], events := [] }

/-- One idle active printer, nothing else. -/
def dbC1init : DB := { dbEmpty with printers := [(1, { status := "idle", is_active := true })] }

/-- Queue two jobs on printer 1, start the first, then complete the still
queued second one: the completion resets the busy printer to idle while
the first job keeps printing. -/
def dbC1bad : DB :=
  applyOp (applyOp (applyOp (applyOp dbC1init
    (.createJob 1 "J1" none none none))
    (.createJob 1 "J2" none none none))
    (.startJob "J1" 0))
    (.completeJob "J2" true 1)

/-- An idle printer with one queued job. -/
def dbC2 : DB := { dbC1init with jobs := [baseJob] }

/-- A printer in error status with one queued job targeting it. -/
def dbC4 : DB :=
  { dbEmpty with
    printers := [(1, { status := "error", is_active := true })],
    jobs := [baseJob] }

/-- A printing job started at time 0 on printer 1. -/
def dbC9 : DB :=
  { dbEmpty with
    printers := [(1, { status := "printing", is_active := true })],
    jobs := [{ baseJob with status := "printing", start_time := some 0 }] }

/-- Trigger the low-inventory alert twice for one spool: drain the spool
below the threshold, refill it through a job with a negative declared
material requirement, then drain it below the threshold again. -/
def dbC6bad : DB :=
  applyOp (applyOp (applyOp (applyOp (applyOp (applyOp (applyOp (applyOp dbEmpty
    (.createPrinter 1))
    (.createSpool "S" "PLA" 1000))
    (.createJob 1 "J1" none (some 900) (some "S")))
    (.updateProgress "J1" 100 none))
    (.createJob 1 "J2" none (some (-100000)) (some "S")))
    (.updateProgress "J2" 100 none))
    (.createJob 1 "J3" none (some 100000) (some "S")))
    (.updateProgress "J3" 100 none)

/-- A printing job with a spool, for the failure-monitor scenario. -/
def jobC7 : PrintJob :=
  { baseJob with
    status := "printing", spool_id := some "S",
    material_g := some 300, start_time := some 0, estimated_time_min := some 60 }

/-- Database for the failure-monitor scenario. -/
def dbC7 : DB :=
  { dbEmpty with
    printers := [(1, { status := "printing", is_active := true })],
    spools := [("S", baseSpool)],
    jobs := [jobC7] }

/-- A completed job with a spool, for the no-state-precondition scenario. -/
def jobC10 : PrintJob :=
  { baseJob with
    status := "completed", spool_id := some "S", material_g := some 300 }

/-- Database for the no-state-precondition scenario. -/
def dbC10 : DB :=
  { dbEmpty with
    printers := [(1, { status := "idle", is_active := true })],
    spools := [("S", baseSpool)],
    jobs := [jobC10] }

/-! ### Helper lemmas about the embedded session primitives -/

theorem find?_update_self {κ α : Type} [BEq κ] [LawfulBEq κ]
    (l : List (κ × α)) (k : κ) (v : α)
    (h : (l.find? (fun p => p.1 == k)).isSome) :
    (l.map (fun p => if p.1 == k then (p.1, v) else p)).find? (fun p => p.1 == k)
      = some (k, v) := by
  induction l with
  | nil => simp at h
  | cons a t ih =>
    by_cases hk : a.1 == k
    · have : a.1 = k := by simpa using hk
      simp [List.find?_cons, hk, this]
    · simp only [List.map_cons, List.find?_cons, hk, if_neg (by simpa using hk)]
      simp only [List.find?_cons, hk] at h
      simpa [hk] using ih (by simpa [hk] using h)

theorem find?_update_ne {κ α : Type} [BEq κ] [LawfulBEq κ]
    (l : List (κ × α)) (k k2 : κ) (v : α) (hne : ¬ (k2 = k)) :
    (l.map (fun p => if p.1 == k then (p.1, v) else p)).find? (fun p => p.1 == k2)
      = l.find? (fun p => p.1 == k2) := by
  induction l with
  | nil => rfl
  | cons a t ih =>
    by_cases hk : a.1 == k
    · have ha : a.1 = k := by simpa using hk
      have h2 : (a.1 == k2) = false := by
        simp [ha]
        exact fun hh => hne hh.symm
      simp [List.find?_cons, hk, h2, ih]
    · by_cases h2 : a.1 == k2
      · simp [List.find?_cons, hk, h2]
      · simp [List.find?_cons, hk, h2, ih]

theorem find?_replace_self (l : List PrintJob) (jid : String) (j : PrintJob)
    (h : (l.find? (fun x => x.job_id == jid)).isSome) (hid : j.job_id = jid) :
    (l.map (fun x => if x.job_id == jid then j else x)).find? (fun x => x.job_id == jid)
      = some j := by
  induction l with
  | nil => simp at h
  | cons a t ih =>
    by_cases hk : a.job_id == jid
    · have ha : a.job_id = jid := by simpa using hk
      simp [List.find?_cons, ha, hid]
    · simp only [List.map_cons, List.find?_cons, hk, if_neg (by simpa using hk)]
      simp only [List.find?_cons, hk] at h
      simpa [hk] using ih (by simpa [hk] using h)

theorem foldl_preserve {α β : Type} (P : α → Prop) (f : α → β → α)
    (h : ∀ a b, P a → P (f a b)) :
    ∀ (l : List β) (a : α), P a → P (l.foldl f a)
  | [], _, ha => ha
  | b :: t, a, ha => foldl_preserve P f h t (f a b) (h a b ha)

@[simp] theorem setJob_printers (db : DB) (jid : String) (j : PrintJob) :
    (setJob db jid j).printers = db.printers := rfl

@[simp] theorem setJob_spools (db : DB) (jid : String) (j : PrintJob) :
    (setJob db jid j).spools = db.spools := rfl

@[simp] theorem setJob_alerts (db : DB) (jid : String) (j : PrintJob) :
    (setJob db jid j).alerts = db.alerts := rfl

@[simp] theorem setJob_events (db : DB) (jid : String) (j : PrintJob) :
    (setJob db jid j).events = db.events := rfl

@[simp] theorem setPrinter_jobs (db : DB) (pid : Nat) (p : Printer) :
    (setPrinter db pid p).jobs = db.jobs := rfl

@[simp] theorem setPrinter_spools (db : DB) (pid : Nat) (p : Printer) :
    (setPrinter db pid p).spools = db.spools := rfl

@[simp] theorem setPrinter_alerts (db : DB) (pid : Nat) (p : Printer) :
    (setPrinter db pid p).alerts = db.alerts := rfl

@[simp] theorem setPrinter_events (db : DB) (pid : Nat) (p : Printer) :
    (setPrinter db pid p).events = db.events := rfl

@[simp] theorem setSpool_jobs (db : DB) (sid : String) (s : Spool) :
    (setSpool db sid s).jobs = db.jobs := rfl

@[simp] theorem setSpool_printers (db : DB) (sid : String) (s : Spool) :
    (setSpool db sid s).printers = db.printers := rfl

@[simp] theorem setSpool_alerts (db : DB) (sid : String) (s : Spool) :
    (setSpool db sid s).alerts = db.alerts := rfl

@[simp] theorem setSpool_events (db : DB) (sid : String) (s : Spool) :
    (setSpool db sid s).events = db.events := rfl

@[simp] theorem ensure_alert_printers (db : DB) (a b c : String) (d e : Option ℚ) :
    (ensure_alert db a b c d e).printers = db.printers := by
  unfold ensure_alert
  split <;> rfl

@[simp] theorem ensure_alert_spools (db : DB) (a b c : String) (d e : Option ℚ) :
    (ensure_alert db a b c d e).spools = db.spools := by
  unfold ensure_alert
  split <;> rfl

@[simp] theorem ensure_alert_jobs (db : DB) (a b c : String) (d e : Option ℚ) :
    (ensure_alert db a b c d e).jobs = db.jobs := by
  unfold ensure_alert
  split <;> rfl

@[simp] theorem ensure_alert_events (db : DB) (a b c : String) (d e : Option ℚ) :
    (ensure_alert db a b c d e).events = db.events := by
  unfold ensure_alert
  split <;> rfl

@[simp] theorem create_inventory_alert_printers (db : DB) (a : String) (r : ℚ) :
    (create_inventory_alert db a r).printers = db.printers := rfl

@[simp] theorem create_inventory_alert_spools (db : DB) (a : String) (r : ℚ) :
    (create_inventory_alert db a r).spools = db.spools := rfl

@[simp] theorem create_inventory_alert_jobs (db : DB) (a : String) (r : ℚ) :
    (create_inventory_alert db a r).jobs = db.jobs := rfl

@[simp] theorem create_inventory_alert_events (db : DB) (a : String) (r : ℚ) :
    (create_inventory_alert db a r).events = db.events := rfl

theorem update_spool_usage_jobs (db : DB) (sid : String) (g : ℚ) :
    ((update_spool_usage db sid g).1).jobs = db.jobs := by
  unfold update_spool_usage
  cases h : findSpool db sid with
  | none => rfl
  | some spool =>
    by_cases ht : spool.total_weight_g == 0
    · simp [ht]
    · simp only [ht, if_neg (by simpa using ht)]
      refine foldl_preserve (fun (d : DB) => d.jobs = db.jobs) _ ?_ _ _ ?_
      · intro a b ha
        cases b.material_g <;> simp [ha]
        split <;> simp [ha]
      · split <;> simp

theorem update_spool_usage_printers (db : DB) (sid : String) (g : ℚ) :
    ((update_spool_usage db sid g).1).printers = db.printers := by
  unfold update_spool_usage
  cases h : findSpool db sid with
  | none => rfl
  | some spool =>
    by_cases ht : spool.total_weight_g == 0
    · simp [ht]
    · simp only [ht, if_neg (by simpa using ht)]
      refine foldl_preserve (fun (d : DB) => d.printers = db.printers) _ ?_ _ _ ?_
      · intro a b ha
        cases b.material_g <;> simp [ha]
        split <;> simp [ha]
      · split <;> simp

theorem update_spool_usage_events (db : DB) (sid : String) (g : ℚ) :
    ((update_spool_usage db sid g).1).events = db.events := by
  unfold update_spool_usage
  cases h : findSpool db sid with
  | none => rfl
  | some spool =>
    by_cases ht : spool.total_weight_g == 0
    · simp [ht]
    · simp only [ht, if_neg (by simpa using ht)]
      refine foldl_preserve (fun (d : DB) => d.events = db.events) _ ?_ _ _ ?_
      · intro a b ha
        cases b.material_g <;> simp [ha]
        split <;> simp [ha]
      · split <;> simp

theorem findJob_congr {d d' : DB} (h : d.jobs = d'.jobs) (jid : String) :
    findJob d jid = findJob d' jid := by
  unfold findJob
  rw [h]

theorem findSpool_congr {d d' : DB} (h : d.spools = d'.spools) (sid : String) :
    findSpool d sid = findSpool d' sid := by
  unfold findSpool
  rw [h]

theorem findPrinter_congr {d d' : DB} (h : d.printers = d'.printers) (pid : Nat) :
    findPrinter d pid = findPrinter d' pid := by
  unfold findPrinter
  rw [h]

theorem findSpool_setSpool_self (db : DB) (sid : String) (s : Spool)
    (h : (findSpool db sid).isSome) :
    findSpool (setSpool db sid s) sid = some s := by
  unfold findSpool setSpool at *
  cases hf : db.spools.find? (fun p => p.1 == sid) with
  | none => rw [hf] at h; simp at h
  | some a =>
    have hs : (db.spools.find? (fun p => p.1 == sid)).isSome := by rw [hf]; rfl
    rw [find?_update_self db.spools sid s hs]
    rfl

theorem findSpool_setSpool_ne (db : DB) (sid sid2 : String) (s : Spool)
    (hne : ¬ (sid2 = sid)) :
    findSpool (setSpool db sid s) sid2 = findSpool db sid2 := by
  unfold findSpool setSpool
  rw [find?_update_ne db.spools sid sid2 s hne]

theorem findJob_setJob_self (db : DB) (jid : String) (j : PrintJob)
    (h : (findJob db jid).isSome) (hid : j.job_id = jid) :
    findJob (setJob db jid j) jid = some j := by
  unfold findJob setJob at *
  exact find?_replace_self db.jobs jid j h hid

theorem findPrinter_setPrinter_self (db : DB) (pid : Nat) (p : Printer)
    (h : (findPrinter db pid).isSome) :
    findPrinter (setPrinter db pid p) pid = some p := by
  unfold findPrinter setPrinter at *
  cases hf : db.printers.find? (fun pr => pr.1 == pid) with
  | none => rw [hf] at h; simp at h
  | some a =>
    have hs : (db.printers.find? (fun pr => pr.1 == pid)).isSome := by rw [hf]; rfl
    rw [find?_update_self db.printers pid p hs]
    rfl

theorem findPrinter_setPrinter_ne (db : DB) (pid pid2 : Nat) (p : Printer)
    (hne : ¬ (pid2 = pid)) :
    findPrinter (setPrinter db pid p) pid2 = findPrinter db pid2 := by
  unfold findPrinter setPrinter
  rw [find?_update_ne db.printers pid pid2 p hne]

theorem findJob_job_id {db : DB} {jid : String} {job : PrintJob}
    (h : findJob db jid = some job) : job.job_id = jid := by
  unfold findJob at h
  have h2 := List.find?_some h
  simpa using h2

@[simp] theorem setJob_jobs (d : DB) (jid : String) (j : PrintJob) :
    (setJob d jid j).jobs = d.jobs.map (fun x => if x.job_id == jid then j else x) := rfl

/-! ### Decomposition of `complete_job` and `update_job_progress` -/

theorem update_job_progress_row_job_id (job : PrintJob) (p : ℚ) (layer : Option Nat) :
    (update_job_progress_row job p layer).job_id = job.job_id := rfl

theorem complete_job_row_status (job : PrintJob) (success : Bool) (now : ℚ) :
    (complete_job_row job success now).status
      = if success then "completed" else "failed" := by
  unfold complete_job_row
  cases job.start_time <;> rfl

theorem complete_job_row_job_id (job : PrintJob) (success : Bool) (now : ℚ) :
    (complete_job_row job success now).job_id = job.job_id := by
  unfold complete_job_row
  cases job.start_time <;> rfl

theorem complete_job_row_actual (job : PrintJob) (success : Bool) (now st : ℚ)
    (h : job.start_time = some st) :
    (complete_job_row job success now).actual_time_min
      = some (pyInt ((now - st) / 60)) := by
  unfold complete_job_row
  rw [h]

theorem complete_job_some (db : DB) (jid : String) (success : Bool) (now : ℚ)
    (job : PrintJob) (h : findJob db jid = some job) :
    (complete_job db jid success now).2 = true ∧
    (complete_job db jid success now).1.jobs
      = (setJob db jid (complete_job_row job success now)).jobs := by
  unfold complete_job
  rw [h]
  refine ⟨rfl, ?_⟩
  dsimp only
  repeat' split
  all_goals simp [setJob_jobs, update_spool_usage_jobs, ensure_alert_jobs]

theorem update_job_progress_some (db : DB) (jid : String) (p : ℚ)
    (layer : Option Nat) (job : PrintJob) (h : findJob db jid = some job) :
    (update_job_progress db jid p layer).2 = true ∧
    (update_job_progress db jid p layer).1.jobs
      = (setJob db jid (update_job_progress_row job p layer)).jobs := by
  unfold update_job_progress
  rw [h]
  refine ⟨rfl, ?_⟩
  dsimp only
  repeat' split
  all_goals simp [setJob_jobs, update_spool_usage_jobs, ensure_alert_jobs]

/-! ### C2: complete_job status precondition -/

/-- C2 counterexample: the job of `dbC2` is queued, not printing, yet
`complete_job` succeeds and mutates it to completed — refuting the claim
that `complete_job` fails with an InvalidState outcome on every job whose
status is not printing. -/
theorem C2_counterexample :
    (findJob dbC2 "J").map PrintJob.status = some "queued" ∧
    (complete_job dbC2 "J" true 0).2 = true ∧
    (findJob (complete_job dbC2 "J" true 0).1 "J").map PrintJob.status
      = some "completed" := by
  refine ⟨?_, ?_, ?_⟩ <;> with_unfolding_all decide

/-- C2 amended: `complete_job` has no status precondition — it succeeds on
every existing job regardless of its status, storing the terminal status
selected by the `success` flag; it fails (leaving the state unchanged) only
when the job does not exist. -/
theorem C2_amended_no_precondition (db : DB) (jid : String) (success : Bool)
    (now : ℚ) (job : PrintJob) (h : findJob db jid = some job) :
    (complete_job db jid success now).2 = true ∧
    (∃ j', findJob (complete_job db jid success now).1 jid = some j' ∧
      j'.status = (if success then "completed" else "failed")) ∧
    (∀ d : DB, findJob d jid = none → complete_job d jid success now = (d, false)) := by
  obtain ⟨h2, hjobs⟩ := complete_job_some db jid success now job h
  refine ⟨h2, ⟨complete_job_row job success now, ?_, complete_job_row_status job success now⟩, ?_⟩
  · rw [findJob_congr hjobs jid]
    exact findJob_setJob_self db jid _ (by rw [h]; rfl)
      (by rw [complete_job_row_job_id]; exact findJob_job_id h)
  · intro d hd
    unfold complete_job
    rw [hd]

/-- C2 witness: the amended statement applied to the queued job of `dbC2`. -/
theorem C2_amended_witness :
    findJob dbC2 "J" = some baseJob ∧
    ((complete_job dbC2 "J" true 0).2 = true ∧
    (∃ j', findJob (complete_job dbC2 "J" true 0).1 "J" = some j' ∧
      j'.status = (if true then "completed" else "failed")) ∧
    (∀ d : DB, findJob d "J" = none → complete_job d "J" true 0 = (d, false))) :=
  ⟨by with_unfolding_all decide,
   C2_amended_no_precondition dbC2 "J" true 0 baseJob (by with_unfolding_all decide)⟩

/-! ### C9: actual duration arithmetic -/

/-- C9 counterexample: completing the job of `dbC9` (started at time 0) at
time 90 stores `actual_time_min = 1`, not the claimed rounded-to-nearest
value 2 — `int()` truncates. -/
theorem C9_counterexample :
    (findJob (complete_job dbC9 "J" true 90).1 "J").map PrintJob.actual_time_min
      = some (some 1) ∧ ((1 : ℤ) ≠ 2) :=
  ⟨by with_unfolding_all decide, by decide⟩

/-- C9 amended: for a job with a start time not after the completion time,
`complete_job` stores `actual_time_min` as the duration in minutes rounded
toward zero (the floor, durations being nonnegative), not to the nearest
integer. -/
theorem C9_amended_truncation (db : DB) (jid : String) (job : PrintJob)
    (st now : ℚ) (success : Bool) (h : findJob db jid = some job)
    (hst : job.start_time = some st) (hle : st ≤ now) :
    ∃ j', findJob (complete_job db jid success now).1 jid = some j' ∧
      j'.actual_time_min = some ⌊(now - st) / 60⌋ := by
  obtain ⟨_, hjobs⟩ := complete_job_some db jid success now job h
  refine ⟨complete_job_row job success now, ?_, ?_⟩
  · rw [findJob_congr hjobs jid]
    exact findJob_setJob_self db jid _ (by rw [h]; rfl)
      (by rw [complete_job_row_job_id]; exact findJob_job_id h)
  · rw [complete_job_row_actual job success now st hst]
    have hq : (0 : ℚ) ≤ (now - st) / 60 := by
      have : (0 : ℚ) ≤ now - st := by linarith
      positivity
    unfold pyInt
    rw [if_pos hq]

/-- C9 witness: the amended statement applied to `dbC9` at time 90. -/
theorem C9_amended_witness :
    findJob dbC9 "J" = some { baseJob with status := "printing", start_time := some 0 } ∧
    (∃ j', findJob (complete_job dbC9 "J" true 90).1 "J" = some j' ∧
      j'.actual_time_min = some ⌊((90 : ℚ) - 0) / 60⌋) :=
  ⟨by with_unfolding_all decide,
   C9_amended_truncation dbC9 "J" { baseJob with status := "printing", start_time := some 0 }
     0 90 true (by with_unfolding_all decide) rfl (by norm_num)⟩

/-! ### C4: start_job printer re-validation -/

theorem start_job_reduce (db : DB) (jid : String) (now : ℚ)
    (job : PrintJob) (printer : Printer)
    (hj : findJob db jid = some job) (hq : job.status = "queued")
    (hs : sTruthy job.spool_id = false)
    (hp : findPrinter db job.printer_id = some printer) :
    start_job db jid now =
      if printer.status == "printing" then (db, false)
      else start_job_commit db job now := by
  unfold start_job
  rw [hj]
  dsimp only
  rw [hq, hp]
  simp [hs]

theorem start_job_commit_no_spool (db : DB) (job : PrintJob) (now : ℚ)
    (printer : Printer) (hp : findPrinter db job.printer_id = some printer)
    (hs : sTruthy job.spool_id = false) :
    start_job_commit db job now =
      (setPrinter (setJob db job.job_id { job with status := "printing", start_time := some now })
        job.printer_id { printer with status := "printing" }, true) := by
  unfold start_job_commit
  have h1 : findPrinter (setJob db job.job_id
      { job with status := "printing", start_time := some now }) job.printer_id
      = some printer := by
    rw [findPrinter_congr (setJob_printers db job.job_id _) job.printer_id]
    exact hp
  dsimp only
  rw [h1]
  dsimp only
  simp [hs]

/-- C4 counterexample: the printer of `dbC4` has status `"error"` (hence is
not IsAvailable), yet `start_job` on its queued job succeeds and sets the
printer to printing — refuting the claim that `start_job` fails with a
ResourceUnavailable outcome for every printer state other than idle∧active. -/
theorem C4_counterexample :
    findPrinter dbC4 1 = some { status := "error", is_active := true } ∧
    (start_job dbC4 "J" 5).2 = true ∧
    findPrinter (start_job dbC4 "J" 5).1 1
      = some { status := "printing", is_active := true } := by
  refine ⟨?_, ?_, ?_⟩ <;> with_unfolding_all decide

/-- C4 amended: `start_job` on a queued job (without a spool) re-validates
only that the referenced printer exists and does not have status
`"printing"`: it fails, leaving the state unchanged, exactly when the
printer's status is `"printing"`, and succeeds — moving job and printer to
printing — for any other printer status (idle, error, maintenance) and
regardless of the printer's active flag. -/
theorem C4_amended_start_validation (db : DB) (jid : String) (now : ℚ)
    (job : PrintJob) (printer : Printer)
    (hj : findJob db jid = some job) (hq : job.status = "queued")
    (hs : sTruthy job.spool_id = false)
    (hp : findPrinter db job.printer_id = some printer) :
    (printer.status = "printing" → start_job db jid now = (db, false)) ∧
    (printer.status ≠ "printing" →
      (start_job db jid now).2 = true ∧
      findPrinter (start_job db jid now).1 job.printer_id
        = some { printer with status := "printing" } ∧
      ∃ j', findJob (start_job db jid now).1 jid = some j' ∧ j'.status = "printing") := by
  rw [start_job_reduce db jid now job printer hj hq hs hp]
  constructor
  · intro he
    rw [if_pos (by simpa using he)]
  · intro hne
    rw [if_neg (by simpa using hne)]
    rw [start_job_commit_no_spool db job now printer hp hs]
    have hid := findJob_job_id hj
    refine ⟨rfl, ?_, ?_⟩
    · apply findPrinter_setPrinter_self
      rw [findPrinter_congr (setJob_printers db job.job_id _) job.printer_id, hp]
      rfl
    · refine ⟨{ job with status := "printing", start_time := some now }, ?_, rfl⟩
      rw [findJob_congr (setPrinter_jobs _ job.printer_id _) jid]
      rw [hid]
      apply findJob_setJob_self
      · rw [hj]
        rfl
      · rfl

/-- C4 witness: the amended statement applied to the error-status printer
of `dbC4`. -/
theorem C4_amended_witness :
    findJob dbC4 "J" = some baseJob ∧
    findPrinter dbC4 1 = some { status := "error", is_active := true } ∧
    ((start_job dbC4 "J" 5).2 = true ∧
      findPrinter (start_job dbC4 "J" 5).1 baseJob.printer_id
        = some { Printer.mk "error" true with status := "printing" } ∧
      ∃ j', findJob (start_job dbC4 "J" 5).1 "J" = some j' ∧ j'.status = "printing") :=
  ⟨by with_unfolding_all decide, by with_unfolding_all decide,
   (C4_amended_start_validation dbC4 "J" 5 baseJob { status := "error", is_active := true }
      (by with_unfolding_all decide) rfl rfl (by with_unfolding_all decide)).2
     (by decide)⟩

/-! ### C5: spool accounting bounds -/

/-- The spool row written back by `update_spool_usage`. -/
theorem update_spool_usage_some (db : DB) (sid : String) (g : ℚ) (spool : Spool)
    (hs : findSpool db sid = some spool) (ht : spool.total_weight_g ≠ 0) :
    (update_spool_usage db sid g).2 = true ∧
    findSpool ((update_spool_usage db sid g).1) sid = some
      { spool with
        remaining_weight_g := max 0 (spool.remaining_weight_g - g),
        usage_percentage := (spool.total_weight_g - max 0 (spool.remaining_weight_g - g))
          / spool.total_weight_g,
        is_low_inventory := decide ((max 0 (spool.remaining_weight_g - g))
          / spool.total_weight_g ≤ inventory_alert_threshold) } := by
  unfold update_spool_usage
  rw [hs]
  dsimp only
  rw [if_neg (by simpa using ht)]
  refine ⟨rfl, ?_⟩
  have hself : findSpool (setSpool db sid
      { spool with
        remaining_weight_g := max 0 (spool.remaining_weight_g - g),
        usage_percentage := (spool.total_weight_g - max 0 (spool.remaining_weight_g - g))
          / spool.total_weight_g,
        is_low_inventory := decide ((max 0 (spool.remaining_weight_g - g))
          / spool.total_weight_g ≤ inventory_alert_threshold) }) sid
      = some
      { spool with
        remaining_weight_g := max 0 (spool.remaining_weight_g - g),
        usage_percentage := (spool.total_weight_g - max 0 (spool.remaining_weight_g - g))
          / spool.total_weight_g,
        is_low_inventory := decide ((max 0 (spool.remaining_weight_g - g))
          / spool.total_weight_g ≤ inventory_alert_threshold) } :=
    findSpool_setSpool_self db sid _ (by rw [hs]; rfl)
  have hfold : ∀ (l : List PrintJob) (d : DB),
      d.spools = (setSpool db sid
        { spool with
          remaining_weight_g := max 0 (spool.remaining_weight_g - g),
          usage_percentage := (spool.total_weight_g - max 0 (spool.remaining_weight_g - g))
            / spool.total_weight_g,
          is_low_inventory := decide ((max 0 (spool.remaining_weight_g - g))
            / spool.total_weight_g ≤ inventory_alert_threshold) }).spools →
      (l.foldl (fun d j =>
          match j.material_g with
          | none => d
          | some m =>
            if max 0 (spool.remaining_weight_g - g)
                < max 0 (m * (1 - j.progress_percentage / 100)) then
              ensure_alert d sid "insufficient_material"
                "spool may not complete job" none none
            else d) d).spools
        = (setSpool db sid
        { spool with
          remaining_weight_g := max 0 (spool.remaining_weight_g - g),
          usage_percentage := (spool.total_weight_g - max 0 (spool.remaining_weight_g - g))
            / spool.total_weight_g,
          is_low_inventory := decide ((max 0 (spool.remaining_weight_g - g))
            / spool.total_weight_g ≤ inventory_alert_threshold) }).spools := by
    intro l
    induction l with
    | nil => intro d hd; exact hd
    | cons b t ih =>
      intro d hd
      apply ih
      dsimp only
      cases hm : b.material_g with
      | none => exact hd
      | some m =>
        dsimp only
        split
        · rw [ensure_alert_spools]
          exact hd
        · exact hd
  split
  · rw [findSpool_congr (hfold _ _ (create_inventory_alert_spools _ _ _)) sid]
    exact hself
  · rw [findSpool_congr (hfold _ _ rfl) sid]
    exact hself

/-- C5: after every `update_spool_usage` call with nonnegative grams on an
existing spool satisfying the accounting invariant, the spool still
satisfies `0 ≤ remaining ≤ total`, its remaining weight has not increased,
and `usage_percentage` equals `(total − remaining)/total` computed from the
post-write remaining value. -/
theorem C5_spool_bounds (db : DB) (sid : String) (g : ℚ) (spool : Spool)
    (hs : findSpool db sid = some spool) (hg : 0 ≤ g)
    (hpos : 0 < spool.total_weight_g)
    (hlo : 0 ≤ spool.remaining_weight_g)
    (hhi : spool.remaining_weight_g ≤ spool.total_weight_g) :
    ∃ sp', findSpool ((update_spool_usage db sid g).1) sid = some sp' ∧
      sp'.total_weight_g = spool.total_weight_g ∧
      0 ≤ sp'.remaining_weight_g ∧
      sp'.remaining_weight_g ≤ sp'.total_weight_g ∧
      sp'.remaining_weight_g ≤ spool.remaining_weight_g ∧
      sp'.usage_percentage
        = (sp'.total_weight_g - sp'.remaining_weight_g) / sp'.total_weight_g := by
  obtain ⟨-, hpost⟩ := update_spool_usage_some db sid g spool hs (ne_of_gt hpos)
  refine ⟨_, hpost, rfl, le_max_left 0 _, ?_, ?_, rfl⟩
  · exact max_le (le_of_lt hpos) (by dsimp only; linarith)
  · exact max_le hlo (by linarith)

set_option maxRecDepth 100000 in
/-- C5 witness: consuming 200 g from the fresh 1000 g spool of `dbC10`. -/
theorem C5_spool_bounds_witness :
    findSpool dbC10 "S" = some baseSpool ∧ (0 : ℚ) ≤ 200 ∧
    (0 : ℚ) < baseSpool.total_weight_g ∧
    (0 : ℚ) ≤ baseSpool.remaining_weight_g ∧
    baseSpool.remaining_weight_g ≤ baseSpool.total_weight_g ∧
    (∃ sp', findSpool ((update_spool_usage dbC10 "S" 200).1) "S" = some sp' ∧
      sp'.total_weight_g = baseSpool.total_weight_g ∧
      0 ≤ sp'.remaining_weight_g ∧
      sp'.remaining_weight_g ≤ sp'.total_weight_g ∧
      sp'.remaining_weight_g ≤ baseSpool.remaining_weight_g ∧
      sp'.usage_percentage
        = (sp'.total_weight_g - sp'.remaining_weight_g) / sp'.total_weight_g) :=
  ⟨by with_unfolding_all decide, by norm_num, by norm_num [baseSpool], by norm_num [baseSpool],
   by norm_num [baseSpool],
   C5_spool_bounds dbC10 "S" 200 baseSpool (by with_unfolding_all decide) (by norm_num)
     (by norm_num [baseSpool]) (by norm_num [baseSpool]) (by norm_num [baseSpool])⟩

/-! ### C8 and C10: update_job_progress -/

/-- C8: for every existing job and every input value, `update_job_progress`
succeeds, stores the clamped progress (always within [0,100]) and the given
layer unconditionally, and performs no material consumption when the delta
against the previously stored progress is ≤ 0 (spools and alerts are left
untouched). -/
theorem C8_progress_clamp (db : DB) (jid : String) (p : ℚ) (layer : Option Nat)
    (job : PrintJob) (h : findJob db jid = some job) :
    (update_job_progress db jid p layer).2 = true ∧
    (∃ j', findJob (update_job_progress db jid p layer).1 jid = some j' ∧
      j'.progress_percentage = max 0 (min 100 p) ∧
      0 ≤ j'.progress_percentage ∧ j'.progress_percentage ≤ 100 ∧
      j'.current_layer = layer.getD job.current_layer) ∧
    (max 0 (min 100 p) - job.progress_percentage ≤ 0 →
      (update_job_progress db jid p layer).1.spools = db.spools ∧
      (update_job_progress db jid p layer).1.alerts = db.alerts) := by
  obtain ⟨h2, hjobs⟩ := update_job_progress_some db jid p layer job h
  refine ⟨h2, ⟨update_job_progress_row job p layer, ?_, rfl, ?_, ?_, rfl⟩, ?_⟩
  · rw [findJob_congr hjobs jid]
    exact findJob_setJob_self db jid _ (by rw [h]; rfl)
      (by rw [update_job_progress_row_job_id]; exact findJob_job_id h)
  · exact le_max_left 0 _
  · exact max_le (by norm_num) (min_le_left _ _)
  · intro hd
    unfold update_job_progress
    rw [h]
    dsimp only
    have hfalse : decide (max 0 (min 100 p) - job.progress_percentage > 0) = false :=
      decide_eq_false (not_lt.mpr hd)
    rw [hfalse]
    simp

/-- C10 (implicit): `update_job_progress` has no job-state precondition —
for a job of any status it succeeds, stores the clamped progress, and when
the delta is positive and the job has a spool and a nonzero material
requirement it consumes `material_g × delta/100` from the spool. -/
theorem C10_no_state_precondition (db : DB) (jid : String) (p : ℚ)
    (layer : Option Nat) (job : PrintJob) (sid : String) (m : ℚ) (spool : Spool)
    (h : findJob db jid = some job)
    (hsid : job.spool_id = some sid) (hne : sid ≠ "")
    (hm : job.material_g = some m) (hm0 : m ≠ 0)
    (hsp : findSpool db sid = some spool) (htot : spool.total_weight_g ≠ 0)
    (hd : 0 < max 0 (min 100 p) - job.progress_percentage) :
    (update_job_progress db jid p layer).2 = true ∧
    (∃ j', findJob (update_job_progress db jid p layer).1 jid = some j' ∧
      j'.progress_percentage = max 0 (min 100 p)) ∧
    (∃ sp', findSpool ((update_job_progress db jid p layer).1) sid = some sp' ∧
      sp'.remaining_weight_g = max 0 (spool.remaining_weight_g
        - m * ((max 0 (min 100 p) - job.progress_percentage) / 100))) := by
  obtain ⟨h2, hjobs⟩ := update_job_progress_some db jid p layer job h
  refine ⟨h2, ⟨update_job_progress_row job p layer, ?_, rfl⟩, ?_⟩
  · rw [findJob_congr hjobs jid]
    exact findJob_setJob_self db jid _ (by rw [h]; rfl)
      (by rw [update_job_progress_row_job_id]; exact findJob_job_id h)
  · unfold update_job_progress
    rw [h]
    dsimp only
    rw [hsid, hm]
    have hcond : (decide (max 0 (min 100 p) - job.progress_percentage > 0)
        && sTruthy (some sid) && qTruthy (some m)) = true := by
      simp [sTruthy, qTruthy, hne, hm0, hd]
    rw [hcond]
    dsimp only [Option.getD]
    obtain ⟨-, hupost⟩ := update_spool_usage_some db sid
      (m * ((max 0 (min 100 p) - job.progress_percentage) / 100)) spool hsp htot
    rw [if_pos rfl, hupost]
    dsimp only
    split
    · rw [findSpool_congr (setJob_spools _ jid _) sid,
        findSpool_congr (ensure_alert_spools _ _ _ _ _ _) sid, hupost]
      exact ⟨_, rfl, rfl⟩
    · rw [findSpool_congr (setJob_spools _ jid _) sid, hupost]
      exact ⟨_, rfl, rfl⟩

set_option maxRecDepth 100000 in
/-- C8 witness: an out-of-range input (250) on the queued job of `dbC2`. -/
theorem C8_progress_clamp_witness :
    findJob dbC2 "J" = some baseJob ∧
    ((update_job_progress dbC2 "J" 250 (some 3)).2 = true ∧
    (∃ j', findJob (update_job_progress dbC2 "J" 250 (some 3)).1 "J" = some j' ∧
      j'.progress_percentage = max 0 (min 100 250) ∧
      0 ≤ j'.progress_percentage ∧ j'.progress_percentage ≤ 100 ∧
      j'.current_layer = (some 3).getD baseJob.current_layer) ∧
    (max 0 (min 100 250) - baseJob.progress_percentage ≤ 0 →
      (update_job_progress dbC2 "J" 250 (some 3)).1.spools = dbC2.spools ∧
      (update_job_progress dbC2 "J" 250 (some 3)).1.alerts = dbC2.alerts)) :=
  ⟨by with_unfolding_all decide,
   C8_progress_clamp dbC2 "J" 250 (some 3) baseJob (by with_unfolding_all decide)⟩

set_option maxRecDepth 100000 in
/-- C10 witness: a progress update on the already completed job of `dbC10`
succeeds and consumes material. -/
theorem C10_no_state_precondition_witness :
    findJob dbC10 "J" = some jobC10 ∧ jobC10.status = "completed" ∧
    ((update_job_progress dbC10 "J" 50 none).2 = true ∧
    (∃ j', findJob (update_job_progress dbC10 "J" 50 none).1 "J" = some j' ∧
      j'.progress_percentage = max 0 (min 100 50)) ∧
    (∃ sp', findSpool ((update_job_progress dbC10 "J" 50 none).1) "S" = some sp' ∧
      sp'.remaining_weight_g = max 0 (baseSpool.remaining_weight_g
        - 300 * ((max 0 (min 100 50) - jobC10.progress_percentage) / 100)))) :=
  ⟨by with_unfolding_all decide, rfl,
   C10_no_state_precondition dbC10 "J" 50 none jobC10 "S" 300 baseSpool
     (by with_unfolding_all decide) rfl (by decide) rfl (by norm_num)
     (by with_unfolding_all decide) (by norm_num [baseSpool])
     (by norm_num [jobC10, baseJob])⟩

/-! ### C3: material conservation across a job's life -/

theorem run_ticks_consumed (m : ℚ) :
    ∀ (inputs : List ℚ) (prev tot : ℚ),
      List.Chain' (· ≤ ·) (prev :: inputs.map (fun x => max 0 (min 100 x))) →
      (inputs.foldl (progress_tick m) (prev, tot)).2
        = tot + m * (((inputs.foldl (progress_tick m) (prev, tot)).1 - prev) / 100) := by
  intro inputs
  induction inputs with
  | nil =>
    intro prev tot _
    simp
  | cons x t ih =>
    intro prev tot hchain
    simp only [List.map_cons, List.chain'_cons] at hchain
    obtain ⟨hle, hchain'⟩ := hchain
    simp only [List.foldl_cons]
    have htick : progress_tick m (prev, tot) x
        = (max 0 (min 100 x), tot + m * ((max 0 (min 100 x) - prev) / 100)) := by
      unfold progress_tick
      dsimp only
      by_cases hpos : max 0 (min 100 x) - prev > 0
      · rw [if_pos hpos]
      · rw [if_neg hpos]
        have hz : max 0 (min 100 x) - prev = 0 := le_antisymm (not_lt.mp hpos) (by linarith)
        rw [hz]
        norm_num
    rw [htick, ih _ _ hchain']
    ring

theorem run_ticks_progress_bounds (m : ℚ) :
    ∀ (inputs : List ℚ) (prev tot : ℚ), 0 ≤ prev → prev ≤ 100 →
      0 ≤ (inputs.foldl (progress_tick m) (prev, tot)).1 ∧
      (inputs.foldl (progress_tick m) (prev, tot)).1 ≤ 100 := by
  intro inputs
  induction inputs with
  | nil =>
    intro prev tot h0 h100
    exact ⟨h0, h100⟩
  | cons x t ih =>
    intro prev tot h0 h100
    simp only [List.foldl_cons]
    have hfst : (progress_tick m (prev, tot) x).1 = max 0 (min 100 x) := rfl
    have h1 : (progress_tick m (prev, tot) x) =
        ((progress_tick m (prev, tot) x).1, (progress_tick m (prev, tot) x).2) := rfl
    rw [h1, hfst]
    exact ih _ _ (le_max_left 0 _) (max_le (by norm_num) (min_le_left _ _))

/-- C3 counterexample: with materialRequired 100 and the progress sequence
50, 30, 80 (containing a regression from 50 to 30), the total consumed on
the job's behalf across its life is 120, not the declared 100 — refuting
the claim that conservation holds for every sequence including
regressions. -/
theorem C3_counterexample :
    total_life_consumption 100 [50, 30, 80] = 120 ∧ (120 : ℚ) ≠ 100 :=
  ⟨by with_unfolding_all decide, by norm_num⟩

/-- C3 amended: material conservation holds exactly for regression-free
reporting — when the clamped progress sequence is monotone non-decreasing
(every delta ≥ 0) and the declared requirement is nonnegative, the ticks
plus the completion remainder consume exactly `m`.  A regression of total
magnitude R instead inflates the total by `m·R/100`, as the counterexample
shows. -/
theorem C3_amended_conservation (m : ℚ) (inputs : List ℚ) (hm : 0 ≤ m)
    (hmono : List.Chain' (· ≤ ·)
      (0 :: inputs.map (fun x => max 0 (min 100 x)))) :
    total_life_consumption m inputs = m := by
  have haux := run_ticks_consumed m inputs 0 0 hmono
  have hb := run_ticks_progress_bounds m inputs 0 0 (le_refl 0) (by norm_num)
  unfold total_life_consumption completion_remainder run_ticks
  unfold run_ticks at haux hb
  rw [haux]
  have hrem : max 0 (m - (inputs.foldl (progress_tick m) (0, 0)).1 / 100 * m)
      = m - (inputs.foldl (progress_tick m) (0, 0)).1 / 100 * m := by
    apply max_eq_right
    have h1 : 0 ≤ 1 - (inputs.foldl (progress_tick m) (0, 0)).1 / 100 := by
      have := hb.2
      linarith
    have := mul_nonneg hm h1
    nlinarith
  rw [hrem]
  ring

/-- C3 witness: the amended statement at m = 100 with the monotone sequence
50, 80. -/
theorem C3_amended_witness :
    (0 : ℚ) ≤ 100 ∧
    List.Chain' (· ≤ ·) (0 :: [(50 : ℚ), 80].map (fun x => max 0 (min 100 x))) ∧
    total_life_consumption 100 [50, 80] = 100 :=
  ⟨by norm_num,
   by norm_num [List.chain'_cons, min_def, max_def],
   C3_amended_conservation 100 [50, 80] (by norm_num)
     (by norm_num [List.chain'_cons, min_def, max_def])⟩

/-! ### C7: the failure-monitor protocol -/

theorem detect_failure_fold_fst :
    ∀ (l : List (String × ℚ)) (acc : ℚ × String),
      (l.foldl (fun acc r => if r.2 > acc.1 then (r.2, r.1) else acc) acc).1
        = l.foldl (fun mx r => max mx r.2) acc.1 := by
  intro l
  induction l with
  | nil => intro acc; rfl
  | cons b t ih =>
    intro acc
    simp only [List.foldl_cons]
    rw [ih]
    congr 1
    by_cases hb : b.2 > acc.1
    · rw [if_pos hb]
      exact (max_eq_right (le_of_lt hb)).symm
    · rw [if_neg hb]
      exact (max_eq_left (not_lt.mp hb)).symm

theorem detect_failure_confidence (results : List (String × ℚ)) :
    (detect_failure results).2.1 = maxConfidence results := by
  unfold detect_failure maxConfidence
  dsimp only
  exact detect_failure_fold_fst results (0, "none")

theorem detect_failure_flag (results : List (String × ℚ)) :
    (detect_failure results).1
      = decide (maxConfidence results > failure_detection_threshold) := by
  unfold detect_failure
  dsimp only
  rw [detect_failure_fold_fst results (0, "none")]
  rfl

@[simp] theorem findJob_setSpool (d : DB) (sid : String) (sp : Spool) (jid : String) :
    findJob (setSpool d sid sp) jid = findJob d jid := rfl

@[simp] theorem findJob_setPrinter (d : DB) (pid : Nat) (p : Printer) (jid : String) :
    findJob (setPrinter d pid p) jid = findJob d jid := rfl

@[simp] theorem findJob_withEvents (d : DB) (l : List FailureEvent) (jid : String) :
    findJob { d with events := l } jid = findJob d jid := rfl

@[simp] theorem findPrinter_setJob (d : DB) (jid : String) (j : PrintJob) (pid : Nat) :
    findPrinter (setJob d jid j) pid = findPrinter d pid := rfl

@[simp] theorem findPrinter_setSpool (d : DB) (sid : String) (sp : Spool) (pid : Nat) :
    findPrinter (setSpool d sid sp) pid = findPrinter d pid := rfl

@[simp] theorem findPrinter_withEvents (d : DB) (l : List FailureEvent) (pid : Nat) :
    findPrinter { d with events := l } pid = findPrinter d pid := rfl

@[simp] theorem findSpool_setJob (d : DB) (jid : String) (j : PrintJob) (sid : String) :
    findSpool (setJob d jid j) sid = findSpool d sid := rfl

@[simp] theorem findSpool_setPrinter (d : DB) (pid : Nat) (p : Printer) (sid : String) :
    findSpool (setPrinter d pid p) sid = findSpool d sid := rfl

@[simp] theorem findSpool_withEvents (d : DB) (l : List FailureEvent) (sid : String) :
    findSpool { d with events := l } sid = findSpool d sid := rfl

@[simp] theorem withEvents_events (d : DB) (l : List FailureEvent) :
    ({ d with events := l } : DB).events = l := rfl

/-- C7: `detect_failure_from_image` on a printing job with a spool mutates
state iff the maximum confidence over the scoring results strictly exceeds
the configured threshold; when it does it sets the job failed, the printer
to error, deactivates the spool, and appends a FailureEvent whose
confidence equals that winning maximum; otherwise it returns none and the
state is exactly unchanged. -/
theorem C7_failure_monitor (db : DB) (jid : String)
    (results : List (String × ℚ)) (path : String) (now : ℚ)
    (job : PrintJob) (sid : String) (spool : Spool)
    (hj : findJob db jid = some job) (hstat : job.status = "printing")
    (hsid : job.spool_id = some sid) (hne : sid ≠ "")
    (hsp : findSpool db sid = some spool) (htot : spool.total_weight_g ≠ 0) :
    (detect_failure results).2.1 = maxConfidence results ∧
    (maxConfidence results > failure_detection_threshold →
      (detect_failure_from_image db jid results path now).2
        = some ⟨jid, (detect_failure results).2.2, maxConfidence results, path⟩ ∧
      (∃ j', findJob (detect_failure_from_image db jid results path now).1 jid
          = some j' ∧ j'.status = "failed") ∧
      (∀ p0, findPrinter db job.printer_id = some p0 →
        findPrinter (detect_failure_from_image db jid results path now).1 job.printer_id
          = some { p0 with status := "error" }) ∧
      (∃ sp', findSpool (detect_failure_from_image db jid results path now).1 sid
          = some sp' ∧ sp'.is_active = false) ∧
      (detect_failure_from_image db jid results path now).1.events
        = db.events ++ [⟨jid, (detect_failure results).2.2, maxConfidence results, path⟩]) ∧
    (¬ maxConfidence results > failure_detection_threshold →
      detect_failure_from_image db jid results path now = (db, none)) := by
  have hconf := detect_failure_confidence results
  have hid := findJob_job_id hj
  have h1jobs : (detect_failure_consume db job now).jobs = db.jobs := by
    unfold detect_failure_consume
    split
    · dsimp only
      repeat' split
      all_goals first
        | exact update_spool_usage_jobs _ _ _
        | rfl
    · rfl
  have h1pr : (detect_failure_consume db job now).printers = db.printers := by
    unfold detect_failure_consume
    split
    · dsimp only
      repeat' split
      all_goals first
        | exact update_spool_usage_printers _ _ _
        | rfl
    · rfl
  have h1ev : (detect_failure_consume db job now).events = db.events := by
    unfold detect_failure_consume
    split
    · dsimp only
      repeat' split
      all_goals first
        | exact update_spool_usage_events _ _ _
        | rfl
    · rfl
  have h1sp : (findSpool (detect_failure_consume db job now) sid).isSome := by
    unfold detect_failure_consume
    rw [hsid]
    simp only [Option.getD_some]
    split
    · repeat' split
      all_goals first
        | (rw [(update_spool_usage_some db sid _ spool hsp htot).2]; rfl)
        | (rw [hsp]; rfl)
    · rw [hsp]
      rfl
  obtain ⟨spx, hspx⟩ := Option.isSome_iff_exists.mp h1sp
  have hfind1 : findJob (detect_failure_consume db job now) jid = some job := by
    rw [findJob_congr h1jobs jid]
    exact hj
  refine ⟨hconf, ?_, ?_⟩
  all_goals intro hcase
  · have hflag : (detect_failure results).1 = true := by
      rw [detect_failure_flag]
      exact decide_eq_true hcase
    have hstr0 : sTruthy job.spool_id = true := by
      rw [hsid]
      simpa [sTruthy] using hne
    have hgd : job.spool_id.getD "" = sid := by
      rw [hsid]
      rfl
    unfold detect_failure_from_image
    rw [hj]
    dsimp only
    rw [hflag, if_pos rfl, hstr0, if_pos rfl]
    rw [← hconf]
    have hfind2 :
        findJob
          { detect_failure_consume db job now with
            events := (detect_failure_consume db job now).events
              ++ [⟨jid, (detect_failure results).2.2, (detect_failure results).2.1, path⟩] }
          jid = some job := hfind1
    have hfp2 : ∀ p0 : Printer, findPrinter db job.printer_id = some p0 →
        findPrinter
          { detect_failure_consume db job now with
            events := (detect_failure_consume db job now).events
              ++ [⟨jid, (detect_failure results).2.2, (detect_failure results).2.1, path⟩] }
          job.printer_id = some p0 := by
      intro p0 hp0
      show findPrinter (detect_failure_consume db job now) job.printer_id = some p0
      rw [findPrinter_congr h1pr job.printer_id]
      exact hp0
    have hsp2 :
        findSpool
          { detect_failure_consume db job now with
            events := (detect_failure_consume db job now).events
              ++ [⟨jid, (detect_failure results).2.2, (detect_failure results).2.1, path⟩] }
          sid = some spx := hspx
    have hev2 :
        ({ detect_failure_consume db job now with
            events := (detect_failure_consume db job now).events
              ++ [⟨jid, (detect_failure results).2.2, (detect_failure results).2.1, path⟩] } : DB).events
          = db.events
            ++ [⟨jid, (detect_failure results).2.2, (detect_failure results).2.1, path⟩] := by
      dsimp only
      rw [h1ev]
    refine ⟨rfl, ?_, ?_, ?_, ?_⟩
    · refine ⟨{ job with status := "failed", end_time := some now }, ?_, rfl⟩
      repeat' split
      all_goals try rw [findJob_setSpool]
      all_goals try rw [findJob_setPrinter]
      all_goals exact findJob_setJob_self _ jid _ (by rw [hfind2]; rfl) hid
    · intro p0 hp0
      have hfp3 := hfp2 p0 hp0
      simp only [findPrinter_setJob, hfp3]
      split
      · rw [findPrinter_setSpool]
        exact findPrinter_setPrinter_self _ job.printer_id _
          (by simp only [findPrinter_setJob, hfp3]; rfl)
      · exact findPrinter_setPrinter_self _ job.printer_id _
          (by simp only [findPrinter_setJob, hfp3]; rfl)
    · rw [hgd]
      split
      · rename_i sp heq
        exact ⟨{ sp with is_active := false },
          findSpool_setSpool_self _ sid _ (by rw [heq]; rfl), rfl⟩
      · rename_i heq
        exfalso
        rw [← Option.not_isSome_iff_eq_none] at heq
        apply heq
        split
        · simp only [findSpool_setPrinter, findSpool_setJob, hsp2]
          rfl
        · simp only [findSpool_setJob, hsp2]
          rfl
    · repeat' split
      all_goals simp only [setSpool_events, setPrinter_events, setJob_events]
      all_goals exact hev2
  · have hflag : (detect_failure results).1 = false := by
      rw [detect_failure_flag]
      exact decide_eq_false hcase
    unfold detect_failure_from_image
    rw [hj]
    dsimp only
    rw [hflag]
    rfl

set_option maxRecDepth 100000 in
/-- C7 witness: a single warping score of 0.9 on the printing job of
`dbC7`. -/
theorem C7_failure_monitor_witness :
    findJob dbC7 "J" = some jobC7 ∧ jobC7.status = "printing" ∧
    jobC7.spool_id = some "S" ∧ ("S" : String) ≠ "" ∧
    findSpool dbC7 "S" = some baseSpool ∧ baseSpool.total_weight_g ≠ 0 ∧
    ((detect_failure [("warping", 9/10)]).2.1 = maxConfidence [("warping", 9/10)] ∧
    (maxConfidence [("warping", 9/10)] > failure_detection_threshold →
      (detect_failure_from_image dbC7 "J" [("warping", 9/10)] "img" 100).2
        = some ⟨"J", (detect_failure [("warping", 9/10)]).2.2,
            maxConfidence [("warping", 9/10)], "img"⟩ ∧
      (∃ j', findJob (detect_failure_from_image dbC7 "J" [("warping", 9/10)] "img" 100).1 "J"
          = some j' ∧ j'.status = "failed") ∧
      (∀ p0, findPrinter dbC7 jobC7.printer_id = some p0 →
        findPrinter (detect_failure_from_image dbC7 "J" [("warping", 9/10)] "img" 100).1
            jobC7.printer_id = some { p0 with status := "error" }) ∧
      (∃ sp', findSpool (detect_failure_from_image dbC7 "J" [("warping", 9/10)] "img" 100).1 "S"
          = some sp' ∧ sp'.is_active = false) ∧
      (detect_failure_from_image dbC7 "J" [("warping", 9/10)] "img" 100).1.events
        = dbC7.events ++ [⟨"J", (detect_failure [("warping", 9/10)]).2.2,
            maxConfidence [("warping", 9/10)], "img"⟩]) ∧
    (¬ maxConfidence [("warping", 9/10)] > failure_detection_threshold →
      detect_failure_from_image dbC7 "J" [("warping", 9/10)] "img" 100 = (dbC7, none))) :=
  ⟨by with_unfolding_all decide, rfl, rfl, by decide,
   by with_unfolding_all decide, by norm_num [baseSpool],
   C7_failure_monitor dbC7 "J" [("warping", 9/10)] "img" 100 jobC7 "S" baseSpool
     (by with_unfolding_all decide) rfl rfl (by decide)
     (by with_unfolding_all decide) (by norm_num [baseSpool])⟩

/-! ### C1: printer exclusivity -/

theorem map_update_no_match (l : List PrintJob) (jid : String) (jnew : PrintJob)
    (h : ∀ x ∈ l, ¬ (x.job_id = jid)) :
    l.map (fun x => if x.job_id == jid then jnew else x) = l := by
  induction l with
  | nil => rfl
  | cons a t ih =>
    have ha : (a.job_id == jid) = false := by
      simpa using h a (List.mem_cons_self a t)
    simp only [List.map_cons, ha]
    rw [ih (fun x hx => h x (List.mem_cons_of_mem a hx))]
    simp

theorem filter_no_match (l : List PrintJob) (jid : String)
    (h : ∀ x ∈ l, ¬ (x.job_id = jid)) :
    l.filter (fun x => !(x.job_id == jid)) = l := by
  induction l with
  | nil => rfl
  | cons a t ih =>
    have ha : (a.job_id == jid) = false := by
      simpa using h a (List.mem_cons_self a t)
    simp only [List.filter_cons, ha]
    rw [ih (fun x hx => h x (List.mem_cons_of_mem a hx))]
    rfl

theorem nodup_no_tail_match {a : PrintJob} {t : List PrintJob}
    (hnd : ((a :: t).map PrintJob.job_id).Nodup) (jid : String)
    (ha : a.job_id = jid) : ∀ x ∈ t, ¬ (x.job_id = jid) := by
  intro x hx hxid
  simp only [List.map_cons, List.nodup_cons] at hnd
  exact hnd.1 (by rw [ha, ← hxid]; exact List.mem_map_of_mem PrintJob.job_id hx)

theorem countP_update (l : List PrintJob) (jid : String) (j jnew : PrintJob)
    (hnd : (l.map PrintJob.job_id).Nodup)
    (hj : l.find? (fun x => x.job_id == jid) = some j)
    (q : PrintJob → Bool) :
    (l.map (fun x => if x.job_id == jid then jnew else x)).countP q
        + (if q j then 1 else 0)
      = l.countP q + (if q jnew then 1 else 0) := by
  induction l with
  | nil => simp at hj
  | cons a t ih =>
    rw [List.map_cons, List.countP_cons, List.countP_cons]
    by_cases hk : (a.job_id == jid) = true
    · have ha : a.job_id = jid := by simpa using hk
      have hfind : (a :: t).find? (fun x => x.job_id == jid) = some a :=
        List.find?_cons_of_pos t hk
      rw [hfind] at hj
      have hja : j = a := (Option.some_inj.mp hj).symm
      rw [if_pos hk, map_update_no_match t jid jnew (nodup_no_tail_match hnd jid ha), hja]
      omega
    · have hfind : (a :: t).find? (fun x => x.job_id == jid)
          = t.find? (fun x => x.job_id == jid) :=
        List.find?_cons_of_neg t hk
      rw [hfind] at hj
      have hnd' : (t.map PrintJob.job_id).Nodup := by
        simp only [List.map_cons, List.nodup_cons] at hnd
        exact hnd.2
      have hih := ih hnd' hj
      rw [if_neg hk]
      omega

theorem countP_erase (l : List PrintJob) (jid : String) (j : PrintJob)
    (hnd : (l.map PrintJob.job_id).Nodup)
    (hj : l.find? (fun x => x.job_id == jid) = some j)
    (q : PrintJob → Bool) :
    (l.filter (fun x => !(x.job_id == jid))).countP q + (if q j then 1 else 0)
      = l.countP q := by
  induction l with
  | nil => simp at hj
  | cons a t ih =>
    rw [List.countP_cons]
    by_cases hk : (a.job_id == jid) = true
    · have ha : a.job_id = jid := by simpa using hk
      have hfind : (a :: t).find? (fun x => x.job_id == jid) = some a :=
        List.find?_cons_of_pos t hk
      rw [hfind] at hj
      have hja : j = a := (Option.some_inj.mp hj).symm
      have hfilter : (a :: t).filter (fun x => !(x.job_id == jid))
          = t.filter (fun x => !(x.job_id == jid)) := by
        simp [List.filter_cons, hk]
      rw [hfilter, filter_no_match t jid (nodup_no_tail_match hnd jid ha), hja]
    · have hfind : (a :: t).find? (fun x => x.job_id == jid)
          = t.find? (fun x => x.job_id == jid) :=
        List.find?_cons_of_neg t hk
      rw [hfind] at hj
      have hnd' : (t.map PrintJob.job_id).Nodup := by
        simp only [List.map_cons, List.nodup_cons] at hnd
        exact hnd.2
      have hih := ih hnd' hj
      have hfilter : (a :: t).filter (fun x => !(x.job_id == jid))
          = a :: t.filter (fun x => !(x.job_id == jid)) := by
        simp [List.filter_cons, Bool.not_eq_true', eq_false_of_ne_true hk]
      rw [hfilter, List.countP_cons]
      omega

theorem map_job_id_update (l : List PrintJob) (jid : String) (jnew : PrintJob)
    (hid : jnew.job_id = jid) :
    (l.map (fun x => if x.job_id == jid then jnew else x)).map PrintJob.job_id
      = l.map PrintJob.job_id := by
  induction l with
  | nil => rfl
  | cons a t ih =>
    simp only [List.map_cons, ih]
    by_cases hk : a.job_id == jid
    · have ha : a.job_id = jid := by simpa using hk
      rw [if_pos hk, hid, ha]
    · rw [if_neg hk]

theorem map_fst_update {κ α : Type} [BEq κ] (l : List (κ × α)) (k : κ) (v : α) :
    (l.map (fun p => if p.1 == k then (p.1, v) else p)).map Prod.fst
      = l.map Prod.fst := by
  induction l with
  | nil => rfl
  | cons a t ih =>
    simp only [List.map_cons, ih]
    by_cases hk : a.1 == k
    · rw [if_pos hk]
    · rw [if_neg hk]

theorem countPrinting_congr {d d' : DB} (h : d.jobs = d'.jobs) (pid : Nat) :
    countPrinting d pid = countPrinting d' pid := by
  unfold countPrinting
  rw [h]

theorem InvC1_congr {d d' : DB} (hj : d'.jobs = d.jobs) (hp : d'.printers = d.printers)
    (h : InvC1 d) : InvC1 d' := by
  obtain ⟨⟨hndJ, hndP, href⟩, hst⟩ := h
  refine ⟨⟨by rw [hj]; exact hndJ, by rw [hp]; exact hndP, ?_⟩, ?_⟩
  · intro j hjm
    rw [hj] at hjm
    rw [hp]
    exact href j hjm
  · intro pr hpr
    rw [hp] at hpr
    rw [countPrinting_congr hj pr.1]
    exact hst pr hpr

theorem findPrinter_mem {db : DB} {pid : Nat} {p : Printer}
    (h : findPrinter db pid = some p) : (pid, p) ∈ db.printers := by
  unfold findPrinter at h
  cases hf : db.printers.find? (fun pr => pr.1 == pid) with
  | none =>
    rw [hf] at h
    simp at h
  | some pr =>
    rw [hf] at h
    simp only [Option.map_some'] at h
    have hm := List.mem_of_find?_eq_some hf
    have hfst : pr.1 = pid := by simpa using List.find?_some hf
    have hpr : pr = (pid, p) := by
      cases pr
      simp_all
    rw [← hpr]
    exact hm

theorem nodup_mem_find? {κ α : Type} [BEq κ] [LawfulBEq κ] (l : List (κ × α))
    (hnd : (l.map Prod.fst).Nodup) (e : κ × α) (he : e ∈ l) :
    l.find? (fun p => p.1 == e.1) = some e := by
  induction l with
  | nil => simp at he
  | cons a t ih =>
    simp only [List.map_cons, List.nodup_cons] at hnd
    rcases List.mem_cons.mp he with rfl | het
    · exact List.find?_cons_of_pos t (by simp)
    · have hne : (a.1 == e.1) = false := by
        rw [beq_eq_false_iff_ne]
        intro hcontra
        exact hnd.1 (by rw [hcontra]; exact List.mem_map_of_mem Prod.fst het)
      rw [List.find?_cons_of_neg t (by simp [hne])]
      exact ih hnd.2 het

theorem findPrinter_of_mem {db : DB} (hnd : (db.printers.map Prod.fst).Nodup)
    {e : Nat × Printer} (he : e ∈ db.printers) : findPrinter db e.1 = some e.2 := by
  unfold findPrinter
  rw [nodup_mem_find? db.printers hnd e he]
  rfl

/-- `create_printer` preserves the exclusivity invariant. -/
theorem InvC1_create_printer (db : DB) (pid : Nat) (h : InvC1 db) :
    InvC1 (create_printer db pid).1 := by
  unfold create_printer
  split
  · exact h
  · rename_i hfresh
    obtain ⟨⟨hndJ, hndP, href⟩, hst⟩ := h
    have hnotin : pid ∉ db.printers.map Prod.fst := by
      intro hmem
      apply hfresh
      obtain ⟨pr, hpr, hfst⟩ := List.mem_map.mp hmem
      exact List.any_eq_true.mpr ⟨pr, hpr, by simp [hfst]⟩
    refine ⟨⟨hndJ, ?_, ?_⟩, ?_⟩
    · dsimp only
      rw [List.map_append]
      simp only [List.map_cons, List.map_nil]
      rw [List.nodup_append]
      exact ⟨hndP, List.nodup_singleton pid, by simpa using hnotin⟩
    · intro j hjm
      dsimp only at hjm ⊢
      rw [List.map_append]
      exact List.mem_append_left _ (href j hjm)
    · intro pr hpr
      dsimp only at hpr
      rcases List.mem_append.mp hpr with hold | hnew
      · rw [show countPrinting { db with printers := db.printers
            ++ [(pid, { status := "idle", is_active := true })] } pr.1
            = countPrinting db pr.1 from rfl]
        exact hst pr hold
      · simp only [List.mem_singleton] at hnew
        subst hnew
        have hns : ¬ (((pid, ({ status := "idle", is_active := true } : Printer))).2.status
            = "printing") := by simp
        rw [if_neg hns]
        rw [show countPrinting { db with printers := db.printers
            ++ [(pid, { status := "idle", is_active := true })] } pid
            = countPrinting db pid from rfl]
        unfold countPrinting
        apply List.countP_eq_zero.mpr
        intro j hjm hq
        simp only [Bool.and_eq_true, beq_iff_eq] at hq
        exact hnotin (hq.1 ▸ href j hjm)

/-- `create_spool` preserves the exclusivity invariant. -/
theorem InvC1_create_spool (db : DB) (sid mt : String) (t : ℚ) (h : InvC1 db) :
    InvC1 (create_spool db sid mt t).1 := by
  unfold create_spool
  split
  · exact h
  · exact InvC1_congr rfl rfl h

/-- `resolve_alert` preserves the exclusivity invariant. -/
theorem InvC1_resolve_alert (db : DB) (idx : Nat) (h : InvC1 db) :
    InvC1 (resolve_alert db idx).1 := by
  unfold resolve_alert
  cases db.alerts.get? idx
  · exact h
  · exact InvC1_congr rfl rfl h

/-- `create_job` preserves the exclusivity invariant. -/
theorem InvC1_create_job (db : DB) (pid : Nat) (jid : String) (est : Option Nat)
    (mg : Option ℚ) (sido : Option String) (h : InvC1 db) :
    InvC1 (create_job db pid jid est mg sido).1 := by
  unfold create_job
  cases hp : findPrinter db pid with
  | none => exact h
  | some printer =>
    dsimp only
    split
    · exact h
    · split
      · exact h
      · split
        · exact h
        · rename_i hfresh
          obtain ⟨⟨hndJ, hndP, href⟩, hst⟩ := h
          refine ⟨⟨?_, hndP, ?_⟩, ?_⟩
          · dsimp only
            rw [List.map_append]
            simp only [List.map_cons, List.map_nil]
            rw [List.nodup_append]
            refine ⟨hndJ, List.nodup_singleton _, by
              simp only [List.disjoint_singleton]
              intro hmem
              apply hfresh
              obtain ⟨x, hx, hfst⟩ := List.mem_map.mp hmem
              exact List.any_eq_true.mpr ⟨x, hx, by simp [hfst]⟩⟩
          · intro j hjm
            dsimp only at hjm
            rcases List.mem_append.mp hjm with hold | hnew
            · exact href j hold
            · simp only [List.mem_singleton] at hnew
              subst hnew
              exact List.mem_map.mpr ⟨(pid, printer), findPrinter_mem hp, rfl⟩
          · intro pr hpr
            have h0 := hst pr hpr
            unfold countPrinting at h0 ⊢
            dsimp only at hpr ⊢
            rw [List.countP_append]
            simpa using h0

theorem countPrinting_setJob (db : DB) (jid : String) (job jnew : PrintJob)
    (hnd : (db.jobs.map PrintJob.job_id).Nodup)
    (hj : findJob db jid = some job) (pid : Nat) :
    countPrinting (setJob db jid jnew) pid
        + (if job.printer_id == pid && job.status == "printing" then 1 else 0)
      = countPrinting db pid
        + (if jnew.printer_id == pid && jnew.status == "printing" then 1 else 0) := by
  unfold findJob at hj
  exact countP_update db.jobs jid job jnew hnd hj _

theorem job_mem_of_findJob {db : DB} {jid : String} {job : PrintJob}
    (hj : findJob db jid = some job) : job ∈ db.jobs := by
  unfold findJob at hj
  exact List.mem_of_find?_eq_some hj

theorem jobsWellFormed_setJob (db : DB) (jid : String) (job jnew : PrintJob)
    (h : jobsWellFormed db) (hj : findJob db jid = some job)
    (hid : jnew.job_id = jid) (hpid : jnew.printer_id = job.printer_id) :
    jobsWellFormed (setJob db jid jnew) := by
  obtain ⟨hndJ, hndP, href⟩ := h
  refine ⟨?_, hndP, ?_⟩
  · rw [setJob_jobs, map_job_id_update db.jobs jid jnew hid]
    exact hndJ
  · intro j hjm
    rw [setJob_jobs] at hjm
    obtain ⟨x, hx, hxe⟩ := List.mem_map.mp hjm
    by_cases hk : (x.job_id == jid) = true
    · rw [if_pos hk] at hxe
      subst hxe
      rw [hpid]
      exact href job (job_mem_of_findJob hj)
    · rw [if_neg hk] at hxe
      subst hxe
      exact href x hx

theorem jobsWellFormed_setPrinter (db : DB) (pid : Nat) (p : Printer)
    (h : jobsWellFormed db) : jobsWellFormed (setPrinter db pid p) := by
  obtain ⟨hndJ, hndP, href⟩ := h
  refine ⟨hndJ, ?_, ?_⟩
  · show ((db.printers.map (fun pr => if pr.1 == pid then (pr.1, p) else pr)).map
      Prod.fst).Nodup
    rw [map_fst_update]
    exact hndP
  · intro j hjm
    show j.printer_id ∈ (db.printers.map
      (fun pr => if pr.1 == pid then (pr.1, p) else pr)).map Prod.fst
    rw [map_fst_update]
    exact href j hjm

/-- The start-shaped transition (queued job and its non-printing printer
both move to printing) preserves the exclusivity invariant. -/
theorem InvC1_start_shape (db : DB) (jid : String) (job jnew : PrintJob)
    (pnew : Printer) (hinv : InvC1 db) (hj : findJob db jid = some job)
    (hid : jnew.job_id = jid) (hpid : jnew.printer_id = job.printer_id)
    (hjs : job.status = "queued") (hns : jnew.status = "printing")
    (printer : Printer) (hp : findPrinter db job.printer_id = some printer)
    (hps : printer.status ≠ "printing") (hpn : pnew.status = "printing") :
    InvC1 (setPrinter (setJob db jid jnew) job.printer_id pnew) := by
  obtain ⟨⟨hndJ, hndP, href⟩, hst⟩ := hinv
  refine ⟨jobsWellFormed_setPrinter _ _ _
    (jobsWellFormed_setJob db jid job jnew ⟨hndJ, hndP, href⟩ hj hid hpid), ?_⟩
  intro pr' hpr'
  obtain ⟨e, he, hcase⟩ := List.mem_map.mp hpr'
  have hcount := countPrinting_setJob db jid job jnew hndJ hj pr'.1
  have hcnt2 : countPrinting (setPrinter (setJob db jid jnew) job.printer_id pnew) pr'.1
      = countPrinting (setJob db jid jnew) pr'.1 := countPrinting_congr rfl pr'.1
  rw [hcnt2]
  have hq0 : (job.printer_id == pr'.1 && job.status == "printing") = false := by
    simp [hjs]
  rw [hq0] at hcount
  simp only [if_neg (by simp : ¬ (false = true)), Nat.add_zero] at hcount
  by_cases hk : (e.1 == job.printer_id) = true
  · have he1 : e.1 = job.printer_id := by simpa using hk
    rw [if_pos hk] at hcase
    have hep : e.2 = printer := by
      have := findPrinter_of_mem hndP he
      rw [he1, hp] at this
      exact Option.some_inj.mp this.symm
    have hfst : pr'.1 = job.printer_id := by
      rw [← hcase]
      exact he1
    have hsnd : pr'.2 = pnew := by
      rw [← hcase]
    rw [hsnd, if_pos hpn]
    have hq1 : (jnew.printer_id == pr'.1 && jnew.status == "printing") = true := by
      simp [hpid, hns, hfst]
    rw [hq1] at hcount
    simp only [if_pos] at hcount
    have hz := hst e he
    rw [he1] at hz
    rw [if_neg (by rw [hep]; exact hps)] at hz
    rw [← hfst] at hz
    omega
  · rw [if_neg hk] at hcase
    subst hcase
    have hne : ¬ (e.1 = job.printer_id) := by simpa using hk
    have hq1 : (jnew.printer_id == e.1 && jnew.status == "printing") = false := by
      have hb : (jnew.printer_id == e.1) = false := by
        rw [hpid]
        exact beq_eq_false_iff_ne.mpr (fun hcontra => hne hcontra.symm)
      simp [hb]
    rw [hq1] at hcount
    simp only [if_neg (by simp : ¬ (false = true)), Nat.add_zero] at hcount
    rw [hcount]
    exact hst e he

/-- The end-shaped transition (a printing job moves to a terminal status
and its printer away from printing) preserves the exclusivity invariant. -/
theorem InvC1_end_shape (db : DB) (jid : String) (job jnew : PrintJob)
    (pnew : Printer) (hinv : InvC1 db) (hj : findJob db jid = some job)
    (hid : jnew.job_id = jid) (hpid : jnew.printer_id = job.printer_id)
    (hjs : job.status = "printing") (hns : jnew.status ≠ "printing")
    (hpn : pnew.status ≠ "printing") :
    InvC1 (setPrinter (setJob db jid jnew) job.printer_id pnew) := by
  obtain ⟨⟨hndJ, hndP, href⟩, hst⟩ := hinv
  refine ⟨jobsWellFormed_setPrinter _ _ _
    (jobsWellFormed_setJob db jid job jnew ⟨hndJ, hndP, href⟩ hj hid hpid), ?_⟩
  intro pr' hpr'
  obtain ⟨e, he, hcase⟩ := List.mem_map.mp hpr'
  have hcount := countPrinting_setJob db jid job jnew hndJ hj pr'.1
  have hcnt2 : countPrinting (setPrinter (setJob db jid jnew) job.printer_id pnew) pr'.1
      = countPrinting (setJob db jid jnew) pr'.1 := countPrinting_congr rfl pr'.1
  rw [hcnt2]
  have hq1 : (jnew.printer_id == pr'.1 && jnew.status == "printing") = false := by
    simp only [Bool.and_eq_false_iff]
    right
    simpa using hns
  rw [hq1] at hcount
  simp only [if_neg (by simp : ¬ (false = true)), Nat.add_zero] at hcount
  by_cases hk : (e.1 == job.printer_id) = true
  · have he1 : e.1 = job.printer_id := by simpa using hk
    rw [if_pos hk] at hcase
    have hfst : pr'.1 = job.printer_id := by
      rw [← hcase]
      exact he1
    have hsnd : pr'.2 = pnew := by
      rw [← hcase]
    rw [hsnd, if_neg hpn]
    have hq0 : (job.printer_id == pr'.1 && job.status == "printing") = true := by
      simp [hjs, hfst]
    rw [hq0] at hcount
    simp only [if_pos] at hcount
    have hpos : 0 < countPrinting db job.printer_id := by
      unfold countPrinting
      apply List.countP_pos_iff.mpr
      exact ⟨job, job_mem_of_findJob hj, by simp [hjs]⟩
    rw [← hfst] at hpos
    have hz := hst e he
    rw [he1] at hz
    rw [← hfst] at hz
    by_cases hstatus : e.2.status = "printing"
    · rw [if_pos hstatus] at hz
      omega
    · rw [if_neg hstatus] at hz
      omega
  · rw [if_neg hk] at hcase
    subst hcase
    have hne : ¬ (e.1 = job.printer_id) := by simpa using hk
    have hq0 : (job.printer_id == e.1 && job.status == "printing") = false := by
      have hb : (job.printer_id == e.1) = false :=
        beq_eq_false_iff_ne.mpr (fun hcontra => hne hcontra.symm)
      simp [hb]
    rw [hq0] at hcount
    simp only [if_neg (by simp : ¬ (false = true)), Nat.add_zero] at hcount
    rw [hcount]
    exact hst e he

/-- `update_job_progress` preserves the exclusivity invariant. -/
theorem InvC1_update_progress (db : DB) (jid : String) (p : ℚ) (layer : Option Nat)
    (h : InvC1 db) : InvC1 (update_job_progress db jid p layer).1 := by
  cases hj : findJob db jid with
  | none =>
    unfold update_job_progress
    rw [hj]
    exact h
  | some job =>
    obtain ⟨-, hjobs⟩ := update_job_progress_some db jid p layer job hj
    have hsets : (update_job_progress db jid p layer).1.printers = db.printers := by
      unfold update_job_progress
      rw [hj]
      dsimp only
      repeat' split
      all_goals simp [update_spool_usage_printers, ensure_alert_printers]
    apply InvC1_congr (d := setJob db jid (update_job_progress_row job p layer)) hjobs
        (by rw [hsets]; rfl)
    obtain ⟨⟨hndJ, hndP, href⟩, hst⟩ := h
    refine ⟨jobsWellFormed_setJob db jid job _ ⟨hndJ, hndP, href⟩ hj
      (by rw [update_job_progress_row_job_id]; exact findJob_job_id hj) rfl, ?_⟩
    intro pr hpr
    have hcount := countPrinting_setJob db jid job (update_job_progress_row job p layer)
      hndJ hj pr.1
    have heq : ((update_job_progress_row job p layer).printer_id == pr.1
        && (update_job_progress_row job p layer).status == "printing")
        = (job.printer_id == pr.1 && job.status == "printing") := rfl
    rw [heq] at hcount
    have := hst pr hpr
    omega

/-- `delete_job` preserves the exclusivity invariant. -/
theorem InvC1_delete_job (db : DB) (jid : String) (h : InvC1 db) :
    InvC1 (delete_job db jid).1 := by
  unfold delete_job
  cases hj : findJob db jid with
  | none => exact h
  | some job =>
    dsimp only
    split
    · exact h
    · rename_i hq0
      have hq : job.status = "queued" := by simpa using hq0
      obtain ⟨⟨hndJ, hndP, href⟩, hst⟩ := h
      refine ⟨⟨?_, hndP, ?_⟩, ?_⟩
      · dsimp only
        exact ((List.filter_sublist db.jobs).map PrintJob.job_id).nodup hndJ
      · intro j hjm
        dsimp only at hjm
        exact href j (List.mem_of_mem_filter hjm)
      · intro pr hpr
        dsimp only at hpr ⊢
        have hcount := countP_erase db.jobs jid job hndJ
          (by unfold findJob at hj; exact hj)
          (fun j => j.printer_id == pr.1 && j.status == "printing")
        have hqf : (job.printer_id == pr.1 && job.status == "printing") = false := by
          simp [hq]
        rw [hqf] at hcount
        simp only [if_neg (by simp : ¬ (false = true)), Nat.add_zero] at hcount
        have := hst pr hpr
        unfold countPrinting at this ⊢
        dsimp only
        omega

/-- The success tail of `start_job` preserves the exclusivity invariant. -/
theorem InvC1_start_commit (db : DB) (job : PrintJob) (now : ℚ) (printer : Printer)
    (h : InvC1 db) (hj : findJob db job.job_id = some job)
    (hq : job.status = "queued")
    (hp : findPrinter db job.printer_id = some printer)
    (hps : printer.status ≠ "printing") :
    InvC1 (start_job_commit db job now).1 := by
  unfold start_job_commit
  dsimp only
  have hp1 : findPrinter (setJob db job.job_id
      { job with status := "printing", start_time := some now }) job.printer_id
      = some printer := by
    rw [findPrinter_setJob]
    exact hp
  rw [hp1]
  dsimp only
  have h2 : InvC1 (setPrinter (setJob db job.job_id
      { job with status := "printing", start_time := some now }) job.printer_id
      { printer with status := "printing" }) :=
    InvC1_start_shape db job.job_id job _ _ h hj rfl rfl hq rfl printer hp hps rfl
  split
  · split
    · split
      · exact InvC1_congr (ensure_alert_jobs _ _ _ _ _ _)
          (ensure_alert_printers _ _ _ _ _ _) h2
      · exact h2
    · exact h2
  · exact h2

/-- `start_job` preserves the exclusivity invariant. -/
theorem InvC1_start_job (db : DB) (jid : String) (now : ℚ) (h : InvC1 db) :
    InvC1 (start_job db jid now).1 := by
  unfold start_job
  cases hj : findJob db jid with
  | none => exact h
  | some job =>
    dsimp only
    split
    · exact h
    · rename_i hq0
      have hq : job.status = "queued" := by simpa using hq0
      have hj' : findJob db job.job_id = some job := by
        rw [findJob_job_id hj]
        exact hj
      cases hp : findPrinter db job.printer_id with
      | none => exact h
      | some printer =>
        dsimp only
        split
        · exact h
        · rename_i hps0
          have hps : printer.status ≠ "printing" := by simpa using hps0
          split
          · cases hfs : (db.spools.find? (fun sp =>
                sp.1 == job.spool_id.getD "" && sp.2.is_active)).map Prod.snd with
            | none => exact h
            | some spool =>
              dsimp only
              split
              · exact InvC1_congr (ensure_alert_jobs _ _ _ _ _ _)
                  (ensure_alert_printers _ _ _ _ _ _) h
              · split
                · exact h
                · exact InvC1_start_commit db job now printer h hj' hq hp hps
          · exact InvC1_start_commit db job now printer h hj' hq hp hps

/-- `complete_job` invoked on a printing job preserves the exclusivity
invariant. -/
theorem InvC1_complete_job (db : DB) (jid : String) (success : Bool) (now : ℚ)
    (hg : ∀ j, findJob db jid = some j → j.status = "printing") (h : InvC1 db) :
    InvC1 (complete_job db jid success now).1 := by
  unfold complete_job
  cases hj : findJob db jid with
  | none => exact h
  | some job =>
    dsimp only
    have hstat := hg job hj
    have hpm : job.printer_id ∈ db.printers.map Prod.fst :=
      h.1.2.2 job (job_mem_of_findJob hj)
    obtain ⟨e, he, hfx⟩ := List.mem_map.mp hpm
    have hp : findPrinter db job.printer_id = some e.2 := by
      rw [← hfx]
      exact findPrinter_of_mem h.1.2.1 he
    have hp1 : findPrinter (setJob db jid (complete_job_row job success now))
        job.printer_id = some e.2 := by
      rw [findPrinter_setJob]
      exact hp
    rw [hp1]
    dsimp only
    have h2 : InvC1 (setPrinter (setJob db jid (complete_job_row job success now))
        job.printer_id { e.2 with status := "idle" }) := by
      apply InvC1_end_shape db jid job _ _ h hj
        (by rw [complete_job_row_job_id]; exact findJob_job_id hj) ?hpid hstat ?hns ?hpn
      case hpid =>
        unfold complete_job_row
        cases job.start_time <;> rfl
      case hns =>
        rw [complete_job_row_status]
        cases success <;> simp
      case hpn => simp
    split
    · split
      · exact InvC1_congr (update_spool_usage_jobs _ _ _)
          (update_spool_usage_printers _ _ _) h2
      · exact h2
    · exact h2

/-- `detect_failure_from_image` invoked on a printing job preserves the
exclusivity invariant. -/
theorem InvC1_detect_failure (db : DB) (jid : String)
    (results : List (String × ℚ)) (path : String) (now : ℚ)
    (hg : ∀ j, findJob db jid = some j → j.status = "printing") (h : InvC1 db) :
    InvC1 (detect_failure_from_image db jid results path now).1 := by
  unfold detect_failure_from_image
  cases hj : findJob db jid with
  | none => exact h
  | some job =>
    dsimp only
    split
    · -- positive detection
      have hstat := hg job hj
      have h1jobs : (detect_failure_consume db job now).jobs = db.jobs := by
        unfold detect_failure_consume
        split
        · dsimp only
          repeat' split
          all_goals first
            | exact update_spool_usage_jobs _ _ _
            | rfl
        · rfl
      have h1pr : (detect_failure_consume db job now).printers = db.printers := by
        unfold detect_failure_consume
        split
        · dsimp only
          repeat' split
          all_goals first
            | exact update_spool_usage_printers _ _ _
            | rfl
        · rfl
      have h2 : InvC1 { detect_failure_consume db job now with
          events := (detect_failure_consume db job now).events
            ++ [⟨jid, (detect_failure results).2.2, (detect_failure results).2.1, path⟩] } :=
        InvC1_congr h1jobs h1pr h
      have hj2 : findJob { detect_failure_consume db job now with
          events := (detect_failure_consume db job now).events
            ++ [⟨jid, (detect_failure results).2.2, (detect_failure results).2.1, path⟩] } jid
          = some job := by
        show findJob (detect_failure_consume db job now) jid = some job
        rw [findJob_congr h1jobs jid]
        exact hj
      have hpm : job.printer_id ∈ db.printers.map Prod.fst :=
        h.1.2.2 job (job_mem_of_findJob hj)
      obtain ⟨e, he, hfx⟩ := List.mem_map.mp hpm
      have hp : findPrinter db job.printer_id = some e.2 := by
        rw [← hfx]
        exact findPrinter_of_mem h.1.2.1 he
      have hp3 : findPrinter (setJob { detect_failure_consume db job now with
          events := (detect_failure_consume db job now).events
            ++ [⟨jid, (detect_failure results).2.2, (detect_failure results).2.1, path⟩] } jid
          { job with status := "failed", end_time := some now }) job.printer_id
          = some e.2 := by
        rw [findPrinter_setJob]
        show findPrinter (detect_failure_consume db job now) job.printer_id = some e.2
        rw [findPrinter_congr h1pr job.printer_id]
        exact hp
      rw [hp3]
      dsimp only
      have h3 : InvC1 (setPrinter (setJob { detect_failure_consume db job now with
          events := (detect_failure_consume db job now).events
            ++ [⟨jid, (detect_failure results).2.2, (detect_failure results).2.1, path⟩] } jid
          { job with status := "failed", end_time := some now }) job.printer_id
          { e.2 with status := "error" }) := by
        apply InvC1_end_shape _ jid job _ _ h2 hj2 ?hid ?hpid hstat ?hns ?hpn
        case hid =>
          have hh := findJob_job_id hj
          exact hh
        case hpid => rfl
        case hns => simp
        case hpn => simp
      split
      · split
        · exact InvC1_congr (setSpool_jobs _ _ _) (setSpool_printers _ _ _) h3
        · exact h3
      · exact h3
    · exact h

/-- Every operation invoked under the printing-only discipline preserves the
exclusivity invariant. -/
theorem InvC1_step (op : Op) (db : DB) (hg : printingOnly db op) (h : InvC1 db) :
    InvC1 (applyOp db op) := by
  cases op with
  | createPrinter pid => exact InvC1_create_printer db pid h
  | createSpool sid mt t => exact InvC1_create_spool db sid mt t h
  | createJob pid jid est mg sid => exact InvC1_create_job db pid jid est mg sid h
  | startJob jid now => exact InvC1_start_job db jid now h
  | updateProgress jid p layer => exact InvC1_update_progress db jid p layer h
  | completeJob jid success now => exact InvC1_complete_job db jid success now hg h
  | detectFailure jid results path now =>
    exact InvC1_detect_failure db jid results path now hg h
  | deleteJob jid => exact InvC1_delete_job db jid h
  | resolveAlert idx => exact InvC1_resolve_alert db idx h

/-- C1 counterexample: starting from a single idle printer, queue two jobs,
start the first, then complete the still queued second.  The state is
reachable through the claim's coordinator operations, the claimed iff holds
initially, yet in the final state the printer is idle while exactly one
printing job still references it. -/
theorem C1_counterexample :
    ReachableW anyCall dbC1init dbC1bad ∧
    printerExclusive dbC1init ∧ ¬ printerExclusive dbC1bad :=
  ⟨ReachableW.step _ (ReachableW.step _ (ReachableW.step _ (ReachableW.step _
      (ReachableW.refl dbC1init) trivial) trivial) trivial) trivial,
   by with_unfolding_all decide, by with_unfolding_all decide⟩

/-- C1 amended: the exclusivity iff — a printer's status is "printing" iff
exactly one printing job references it — holds in every state reachable
through the coordinator operations from a well-formed state, provided
`complete_job` and `detect_failure_from_image` are invoked only on jobs
whose status is printing (the code enforces no such precondition itself,
as the counterexample shows). -/
theorem C1_amended_exclusivity (db0 db : DB) (h0 : InvC1 db0)
    (hr : ReachableW printingOnly db0 db) : printerExclusive db := by
  have hinv : InvC1 db := by
    induction hr with
    | refl => exact h0
    | step op hr hg ih => exact InvC1_step op _ hg ih
  intro pr hpr
  have hz := hinv.2 pr hpr
  constructor
  · intro hs
    rw [hz, if_pos hs]
  · intro hc
    by_contra hs
    rw [hz, if_neg hs] at hc
    exact absurd hc (by decide)

/-- C1 witness: the amended statement applied to the initial single-printer
state with the empty trace. -/
theorem C1_amended_exclusivity_witness :
    InvC1 dbC1init ∧ ReachableW printingOnly dbC1init dbC1init ∧
    printerExclusive dbC1init :=
  ⟨by with_unfolding_all decide, ReachableW.refl dbC1init,
   C1_amended_exclusivity dbC1init dbC1init (by with_unfolding_all decide)
     (ReachableW.refl dbC1init)⟩

/-! ### C6: alert deduplication -/

theorem countP_append_singleton {α : Type} (l : List α) (a : α) (p : α → Bool) :
    (l ++ [a]).countP p = l.countP p + (if p a then 1 else 0) := by
  rw [List.countP_append]
  simp [List.countP_cons]

theorem countP_set_le {α : Type} (l : List α) (i : Nat) (a' : α) (p : α → Bool)
    (h : p a' = false) : (l.set i a').countP p ≤ l.countP p := by
  induction l generalizing i with
  | nil => simp
  | cons b t ih =>
    cases i with
    | zero =>
      rw [List.set_cons_zero, List.countP_cons, List.countP_cons, h]
      simp
    | succ n =>
      rw [List.set_cons_succ, List.countP_cons, List.countP_cons]
      have := ih n
      omega

theorem spool_mem_of_findSpool {db : DB} {sid : String} {sp : Spool}
    (h : findSpool db sid = some sp) : (sid, sp) ∈ db.spools := by
  unfold findSpool at h
  cases hf : db.spools.find? (fun p => p.1 == sid) with
  | none =>
    rw [hf] at h
    simp at h
  | some pr =>
    rw [hf] at h
    simp only [Option.map_some'] at h
    have hm := List.mem_of_find?_eq_some hf
    have hfst : pr.1 = sid := by simpa using List.find?_some hf
    have hpr : pr = (sid, sp) := by
      cases pr
      simp_all
    rw [← hpr]
    exact hm

theorem findSpool_appended (db : DB) (sid sid2 : String) (s : Spool) (sp : Spool)
    (h : findSpool db sid2 = some sp) :
    findSpool { db with spools := db.spools ++ [(sid, s)] } sid2 = some sp := by
  unfold findSpool at h ⊢
  dsimp only
  cases hf : db.spools.find? (fun p => p.1 == sid2) with
  | none =>
    rw [hf] at h
    simp at h
  | some pr =>
    rw [hf] at h
    rw [List.find?_append, hf]
    exact h

/-- The low-inventory comparison is monotone under nonnegative consumption
from a flagged spool. -/
theorem low_flag_monotone (total rem g : ℚ) (htot : total ≠ 0) (hg : 0 ≤ g)
    (hold : rem / total ≤ inventory_alert_threshold) (hrem : 0 ≤ rem) :
    (max 0 (rem - g)) / total ≤ inventory_alert_threshold := by
  have hth : (0 : ℚ) ≤ inventory_alert_threshold := by
    unfold inventory_alert_threshold
    norm_num
  rcases lt_or_gt_of_ne htot with hneg | hpos
  · have h1 : 0 ≤ max 0 (rem - g) := le_max_left 0 _
    have h2 : (max 0 (rem - g)) / total ≤ 0 :=
      div_nonpos_iff.mpr (Or.inl ⟨h1, le_of_lt hneg⟩)
    linarith
  · have h2 : max 0 (rem - g) ≤ rem := max_le hrem (by linarith)
    have h3 : (max 0 (rem - g)) / total ≤ rem / total :=
      (div_le_div_right hpos).mpr h2
    linarith

/-- `ensure_alert` with the `insufficient_material` type preserves the
alert invariant. -/
theorem InvC6_ensure (db : DB) (sid msg : String) (tp cp : Option ℚ)
    (h : InvC6 db) : InvC6 (ensure_alert db sid "insufficient_material" msg tp cp) := by
  obtain ⟨hded, hlow, hflag, hmat⟩ := h
  unfold ensure_alert
  split
  · exact ⟨hded, hlow, hflag, hmat⟩
  · rename_i hnone
    refine ⟨?_, ?_, hflag, hmat⟩
    · intro sid2 t2
      unfold unresolvedCount
      dsimp only
      rw [countP_append_singleton]
      by_cases hkey : sid2 = sid ∧ t2 = "insufficient_material"
      · obtain ⟨h1, h2⟩ := hkey
        rw [h1, h2]
        have hz : unresolvedCount db sid "insufficient_material" = 0 := by
          unfold unresolvedCount
          apply List.countP_eq_zero.mpr
          intro a ha hpa
          exact hnone (List.any_eq_true.mpr ⟨a, ha, hpa⟩)
        unfold unresolvedCount at hz
        rw [hz]
        split <;> omega
      · have hded2 := hded sid2 t2
        unfold unresolvedCount at hded2
        split
        · rename_i hc
          simp only [Bool.and_eq_true, beq_iff_eq] at hc
          exact absurd ⟨hc.1.1.symm, hc.1.2.symm⟩ hkey
        · omega
    · intro a ha hra hta
      dsimp only at ha
      rcases List.mem_append.mp ha with hold | hnew
      · exact hlow a hold hra hta
      · simp only [List.mem_singleton] at hnew
        subst hnew
        simp at hta

theorem unresolvedCount_congr {d d' : DB} (ha : d'.alerts = d.alerts)
    (sid t : String) : unresolvedCount d' sid t = unresolvedCount d sid t := by
  unfold unresolvedCount
  rw [ha]

/-- Alert-invariant transfer along alert/spool-preserving rewrites, with the
job-material clause re-established directly. -/
theorem InvC6_of_parts {d d' : DB} (ha : d'.alerts = d.alerts)
    (hs : d'.spools = d.spools)
    (hmat : ∀ j ∈ d'.jobs, ∀ m, j.material_g = some m → 0 ≤ m)
    (h : InvC6 d) : InvC6 d' := by
  obtain ⟨hded, hlow, hflag, -⟩ := h
  refine ⟨?_, ?_, ?_, hmat⟩
  · intro sid t
    rw [unresolvedCount_congr ha]
    exact hded sid t
  · intro a ham hra hta
    rw [ha] at ham
    obtain ⟨sp, hsp, hf⟩ := hlow a ham hra hta
    exact ⟨sp, by rw [findSpool_congr hs]; exact hsp, hf⟩
  · intro sp hsp
    rw [hs] at hsp
    exact hflag sp hsp

theorem InvC6_congr {d d' : DB} (ha : d'.alerts = d.alerts)
    (hs : d'.spools = d.spools) (hj : d'.jobs = d.jobs)
    (h : InvC6 d) : InvC6 d' :=
  InvC6_of_parts ha hs (by rw [hj]; exact h.2.2.2) h

/-- `setJob` with a row whose declared material is nonnegative preserves the
alert invariant. -/
theorem InvC6_setJob (db : DB) (jid : String) (jnew : PrintJob)
    (hm : ∀ m, jnew.material_g = some m → 0 ≤ m)
    (h : InvC6 db) : InvC6 (setJob db jid jnew) := by
  apply InvC6_of_parts (setJob_alerts db jid jnew) (setJob_spools db jid jnew) ?_ h
  intro j hjm m hjmat
  rw [setJob_jobs] at hjm
  obtain ⟨x, hx, hxe⟩ := List.mem_map.mp hjm
  by_cases hk : (x.job_id == jid) = true
  · rw [if_pos hk] at hxe
    subst hxe
    exact hm m hjmat
  · rw [if_neg hk] at hxe
    subst hxe
    exact h.2.2.2 x hx m hjmat

/-- The consuming spool write of `update_spool_usage` preserves the alert
invariant when the consumed amount is nonnegative. -/
theorem InvC6_setSpool_consume (db : DB) (sid : String) (g : ℚ) (spool : Spool)
    (hg : 0 ≤ g) (hs : findSpool db sid = some spool)
    (htot : spool.total_weight_g ≠ 0) (h : InvC6 db) :
    InvC6 (setSpool db sid
      { spool with
        remaining_weight_g := max 0 (spool.remaining_weight_g - g),
        usage_percentage := (spool.total_weight_g
          - max 0 (spool.remaining_weight_g - g)) / spool.total_weight_g,
        is_low_inventory := decide ((max 0 (spool.remaining_weight_g - g))
          / spool.total_weight_g ≤ inventory_alert_threshold) }) := by
  obtain ⟨hded, hlow, hflag, hmat⟩ := h
  have hmono : spool.is_low_inventory = true →
      decide ((max 0 (spool.remaining_weight_g - g))
        / spool.total_weight_g ≤ inventory_alert_threshold) = true := by
    intro hwas
    obtain ⟨hpct, hrem⟩ := hflag (sid, spool) (spool_mem_of_findSpool hs) hwas
    exact decide_eq_true
      (low_flag_monotone spool.total_weight_g spool.remaining_weight_g g htot hg hpct hrem)
  refine ⟨?_, ?_, ?_, hmat⟩
  · intro sid2 t2
    rw [unresolvedCount_congr (setSpool_alerts db sid _)]
    exact hded sid2 t2
  · intro a ham hra hta
    rw [setSpool_alerts] at ham
    obtain ⟨sp, hsp, hf⟩ := hlow a ham hra hta
    by_cases hkey : a.spool_id = sid
    · rw [hkey] at hsp ⊢
      have hspe : sp = spool := Option.some_inj.mp (hsp.symm.trans hs)
      refine ⟨_, findSpool_setSpool_self db sid _ (by rw [hs]; rfl), ?_⟩
      exact hmono (by rw [← hspe]; exact hf)
    · exact ⟨sp, by rw [findSpool_setSpool_ne db sid a.spool_id _ hkey]; exact hsp, hf⟩
  · intro e he
    unfold setSpool at he
    dsimp only at he
    obtain ⟨e0, he0, he0e⟩ := List.mem_map.mp he
    by_cases hk : (e0.1 == sid) = true
    · rw [if_pos hk] at he0e
      subst he0e
      intro hflag1
      dsimp only at hflag1 ⊢
      constructor
      · exact of_decide_eq_true hflag1
      · exact le_max_left 0 _
    · rw [if_neg hk] at he0e
      subst he0e
      exact hflag e0 he0

/-- `_create_inventory_alert` preserves the alert invariant when no
unresolved low-inventory alert exists for the spool and its flag is set. -/
theorem InvC6_create_inventory_alert (db : DB) (sid : String) (rp : ℚ)
    (h : InvC6 db)
    (hnolow : unresolvedCount db sid "low_inventory" = 0)
    (hsp : ∃ sp, findSpool db sid = some sp ∧ sp.is_low_inventory = true) :
    InvC6 (create_inventory_alert db sid rp) := by
  obtain ⟨hded, hlow, hflag, hmat⟩ := h
  unfold create_inventory_alert
  refine ⟨?_, ?_, hflag, hmat⟩
  · intro sid2 t2
    unfold unresolvedCount
    dsimp only
    rw [countP_append_singleton]
    by_cases hkey : sid2 = sid ∧ t2 = "low_inventory"
    · obtain ⟨h1, h2⟩ := hkey
      rw [h1, h2]
      unfold unresolvedCount at hnolow
      rw [hnolow]
      split <;> omega
    · have hded2 := hded sid2 t2
      unfold unresolvedCount at hded2
      split
      · rename_i hc
        simp only [Bool.and_eq_true, beq_iff_eq] at hc
        exact absurd ⟨hc.1.1.symm, hc.1.2.symm⟩ hkey
      · omega
  · intro a ham hra hta
    dsimp only at ham
    rcases List.mem_append.mp ham with hold | hnew
    · exact hlow a hold hra hta
    · simp only [List.mem_singleton] at hnew
      subst hnew
      exact hsp

/-- `update_spool_usage` with a nonnegative amount preserves the alert
invariant. -/
theorem InvC6_update_spool (db : DB) (sid : String) (g : ℚ) (hg : 0 ≤ g)
    (h : InvC6 db) : InvC6 (update_spool_usage db sid g).1 := by
  unfold update_spool_usage
  cases hs : findSpool db sid with
  | none => exact h
  | some spool =>
    dsimp only
    split
    · exact h
    · rename_i htot0
      have htot : spool.total_weight_g ≠ 0 := by simpa using htot0
      have hA := InvC6_setSpool_consume db sid g spool hg hs htot h
      dsimp only
      refine foldl_preserve InvC6 _ ?_ _ _ ?_
      · intro d j hd
        cases j.material_g with
        | none => exact hd
        | some m =>
          dsimp only
          split
          · exact InvC6_ensure _ _ _ _ _ hd
          · exact hd
      · split
        · rename_i hguard
          simp only [Bool.and_eq_true, Bool.not_eq_true'] at hguard
          apply InvC6_create_inventory_alert _ _ _ hA
          · rw [unresolvedCount_congr (setSpool_alerts db sid _)]
            by_contra hc
            have hpos : 0 < unresolvedCount db sid "low_inventory" := by omega
            unfold unresolvedCount at hpos
            obtain ⟨a, ham, hpa⟩ := List.countP_pos_iff.mp hpos
            simp only [Bool.and_eq_true, beq_iff_eq, Bool.not_eq_true'] at hpa
            obtain ⟨sp, hsp, hf⟩ := h.2.1 a ham hpa.2 hpa.1.2
            rw [hpa.1.1, hs] at hsp
            rw [Option.some_inj.mp hsp.symm] at hf
            rw [hguard.2] at hf
            exact absurd hf (by simp)
          · refine ⟨_, findSpool_setSpool_self db sid _ (by rw [hs]; rfl), ?_⟩
            exact hguard.1
        · exact hA

theorem complete_job_row_material (job : PrintJob) (success : Bool) (now : ℚ) :
    (complete_job_row job success now).material_g = job.material_g := by
  unfold complete_job_row
  cases job.start_time <;> rfl

/-- Deactivating a spool (`is_active := false`) preserves the alert
invariant: the inventory flag and weights are untouched. -/
theorem InvC6_setSpool_deactivate (db : DB) (sid : String) (sp : Spool)
    (hs : findSpool db sid = some sp) (h : InvC6 db) :
    InvC6 (setSpool db sid { sp with is_active := false }) := by
  obtain ⟨hded, hlow, hflag, hmat⟩ := h
  refine ⟨?_, ?_, ?_, hmat⟩
  · intro sid2 t2
    rw [unresolvedCount_congr (setSpool_alerts db sid _)]
    exact hded sid2 t2
  · intro a ham hra hta
    rw [setSpool_alerts] at ham
    obtain ⟨sp2, hsp2, hf2⟩ := hlow a ham hra hta
    by_cases hkey : a.spool_id = sid
    · rw [hkey] at hsp2 ⊢
      have hspe : sp2 = sp := Option.some_inj.mp (hsp2.symm.trans hs)
      refine ⟨_, findSpool_setSpool_self db sid _ (by rw [hs]; rfl), ?_⟩
      rw [← hspe]
      exact hf2
    · exact ⟨sp2, by rw [findSpool_setSpool_ne db sid a.spool_id _ hkey]; exact hsp2, hf2⟩
  · intro e he
    unfold setSpool at he
    dsimp only at he
    obtain ⟨e0, he0, he0e⟩ := List.mem_map.mp he
    by_cases hk : (e0.1 == sid) = true
    · rw [if_pos hk] at he0e
      subst he0e
      intro hflag1
      dsimp only at hflag1 ⊢
      exact hflag (sid, sp) (spool_mem_of_findSpool hs) hflag1
    · rw [if_neg hk] at he0e
      subst he0e
      exact hflag e0 he0

theorem InvC6_setPrinter (db : DB) (pid : Nat) (p : Printer) (h : InvC6 db) :
    InvC6 (setPrinter db pid p) :=
  InvC6_congr (setPrinter_alerts db pid p) (setPrinter_spools db pid p)
    (setPrinter_jobs db pid p) h

theorem InvC6_withEvents (db : DB) (l : List FailureEvent) (h : InvC6 db) :
    InvC6 { db with events := l } :=
  InvC6_congr rfl rfl rfl h

theorem InvC6_create_printer (db : DB) (pid : Nat) (h : InvC6 db) :
    InvC6 (create_printer db pid).1 := by
  unfold create_printer
  split
  · exact h
  · exact InvC6_congr rfl rfl rfl h

theorem InvC6_create_spool (db : DB) (sid mt : String) (t : ℚ) (h : InvC6 db) :
    InvC6 (create_spool db sid mt t).1 := by
  unfold create_spool
  split
  · exact h
  · obtain ⟨hded, hlow, hflag, hmat⟩ := h
    refine ⟨?_, ?_, ?_, hmat⟩
    · intro sid2 t2
      exact hded sid2 t2
    · intro a ham hra hta
      obtain ⟨sp, hsp, hf⟩ := hlow a ham hra hta
      exact ⟨sp, findSpool_appended db sid a.spool_id _ sp hsp, hf⟩
    · intro sp hsp
      rcases List.mem_append.mp hsp with h1 | h2
      · exact hflag sp h1
      · simp only [List.mem_singleton] at h2
        subst h2
        intro hfl
        exact absurd hfl Bool.false_ne_true

theorem InvC6_create_job (db : DB) (pid : Nat) (jid : String) (est : Option Nat)
    (mg : Option ℚ) (sid : Option String)
    (hm : ∀ m, mg = some m → 0 ≤ m) (h : InvC6 db) :
    InvC6 (create_job db pid jid est mg sid).1 := by
  unfold create_job
  cases findPrinter db pid with
  | none => exact h
  | some printer =>
    dsimp only
    split
    · exact h
    · split
      · exact h
      · split
        · exact h
        · refine @InvC6_of_parts db _ rfl rfl ?_ h
          intro j hj m hjm
          rcases List.mem_append.mp hj with h1 | h2
          · exact h.2.2.2 j h1 m hjm
          · simp only [List.mem_singleton] at h2
            subst h2
            exact hm m hjm

/-- The success tail of `start_job` preserves the alert invariant. -/
theorem InvC6_start_commit (db : DB) (job : PrintJob) (now : ℚ)
    (hjob : job ∈ db.jobs) (h : InvC6 db) :
    InvC6 (start_job_commit db job now).1 := by
  unfold start_job_commit
  dsimp only
  have h1 : InvC6 (setJob db job.job_id
      { job with status := "printing", start_time := some now }) :=
    InvC6_setJob db _ _ (fun m hm => h.2.2.2 job hjob m hm) h
  have hstep : ∀ d : DB, InvC6 d → InvC6 (
      if sTruthy job.spool_id && qTruthy job.material_g then
        match findSpool d (job.spool_id.getD "") with
        | some spool =>
          if spool.remaining_weight_g < job.material_g.getD 0 then
            ensure_alert d (job.spool_id.getD "") "insufficient_material"
              "spool has insufficient material for job" none none
          else d
        | none => d
      else d) := by
    intro d hd
    split
    · split
      · split
        · exact InvC6_ensure _ _ _ _ _ hd
        · exact hd
      · exact hd
    · exact hd
  cases findPrinter (setJob db job.job_id
      { job with status := "printing", start_time := some now }) job.printer_id with
  | none => exact hstep _ h1
  | some p => exact hstep _ (InvC6_congr rfl rfl rfl h1)

theorem InvC6_start_job (db : DB) (jid : String) (now : ℚ) (h : InvC6 db) :
    InvC6 (start_job db jid now).1 := by
  unfold start_job
  cases hj : findJob db jid with
  | none => exact h
  | some job =>
    dsimp only
    split
    · exact h
    · cases findPrinter db job.printer_id with
      | none => exact h
      | some printer =>
        dsimp only
        split
        · exact h
        · split
          · cases (db.spools.find? (fun sp =>
                sp.1 == job.spool_id.getD "" && sp.2.is_active)).map Prod.snd with
            | none => exact h
            | some spool =>
              dsimp only
              split
              · exact InvC6_ensure _ _ _ _ _ h
              · split
                · exact h
                · exact InvC6_start_commit db job now (job_mem_of_findJob hj) h
          · exact InvC6_start_commit db job now (job_mem_of_findJob hj) h

theorem InvC6_update_progress (db : DB) (jid : String) (p : ℚ) (layer : Option Nat)
    (h : InvC6 db) : InvC6 (update_job_progress db jid p layer).1 := by
  unfold update_job_progress
  cases hj : findJob db jid with
  | none => exact h
  | some job =>
    dsimp only
    apply InvC6_setJob
    · intro m hm
      exact h.2.2.2 job (job_mem_of_findJob hj) m hm
    · split
      · rename_i hcond
        simp only [Bool.and_eq_true, decide_eq_true_eq] at hcond
        cases hmg : job.material_g with
        | none =>
          rw [hmg] at hcond
          exact absurd hcond.2 (by simp [qTruthy])
        | some m0 =>
          rw [hmg] at hcond
          have hm0 : 0 ≤ m0 := h.2.2.2 job (job_mem_of_findJob hj) m0 hmg
          have hnn : 0 ≤ (some m0).getD 0 *
              ((max 0 (min 100 p) - job.progress_percentage) / 100) := by
            apply mul_nonneg
            · simpa using hm0
            · have hd := hcond.1.1
              positivity
          have hd1 := InvC6_update_spool db (job.spool_id.getD "") _ hnn h
          split
          · split
            · exact InvC6_ensure _ _ _ _ _ hd1
            · exact hd1
          · exact hd1
      · exact h

theorem InvC6_complete_job (db : DB) (jid : String) (success : Bool) (now : ℚ)
    (h : InvC6 db) : InvC6 (complete_job db jid success now).1 := by
  unfold complete_job
  cases hj : findJob db jid with
  | none => exact h
  | some job =>
    dsimp only
    have h1 : InvC6 (setJob db jid (complete_job_row job success now)) := by
      apply InvC6_setJob
      · intro m hm
        rw [complete_job_row_material] at hm
        exact h.2.2.2 job (job_mem_of_findJob hj) m hm
      · exact h
    cases findPrinter (setJob db jid (complete_job_row job success now))
        job.printer_id with
    | none =>
      split
      · split
        · exact InvC6_update_spool _ _ _ (le_max_left 0 _) h1
        · exact h1
      · exact h1
    | some pr =>
      have h2 : InvC6 (setPrinter (setJob db jid (complete_job_row job success now))
          job.printer_id { pr with status := "idle" }) :=
        InvC6_congr rfl rfl rfl h1
      split
      · split
        · exact InvC6_update_spool _ _ _ (le_max_left 0 _) h2
        · exact h2
      · exact h2

/-- The material-reconciliation prelude of `detect_failure_from_image`
preserves the alert invariant. -/
theorem InvC6_detect_failure_consume (db : DB) (job : PrintJob) (now : ℚ)
    (h : InvC6 db) : InvC6 (detect_failure_consume db job now) := by
  unfold detect_failure_consume
  split
  · dsimp only
    split
    · rename_i hpos
      exact InvC6_update_spool _ _ _ (le_of_lt hpos) h
    · exact h
  · exact h

theorem InvC6_detect_failure (db : DB) (jid : String) (results : List (String × ℚ))
    (path : String) (now : ℚ) (h : InvC6 db) :
    InvC6 (detect_failure_from_image db jid results path now).1 := by
  unfold detect_failure_from_image
  cases hj : findJob db jid with
  | none => exact h
  | some job =>
    dsimp only
    split
    · split
      · split
        · rename_i sp hfd
          refine InvC6_setSpool_deactivate _ _ sp hfd ?_
          split
          · refine InvC6_setPrinter _ _ _ ?_
            refine InvC6_setJob _ _ _
              (fun m hm => h.2.2.2 job (job_mem_of_findJob hj) m hm) ?_
            refine InvC6_withEvents (detect_failure_consume db job now) _ ?_
            exact InvC6_detect_failure_consume db job now h
          · refine InvC6_setJob _ _ _
              (fun m hm => h.2.2.2 job (job_mem_of_findJob hj) m hm) ?_
            refine InvC6_withEvents (detect_failure_consume db job now) _ ?_
            exact InvC6_detect_failure_consume db job now h
        · split
          · refine InvC6_setPrinter _ _ _ ?_
            refine InvC6_setJob _ _ _
              (fun m hm => h.2.2.2 job (job_mem_of_findJob hj) m hm) ?_
            refine InvC6_withEvents (detect_failure_consume db job now) _ ?_
            exact InvC6_detect_failure_consume db job now h
          · refine InvC6_setJob _ _ _
              (fun m hm => h.2.2.2 job (job_mem_of_findJob hj) m hm) ?_
            refine InvC6_withEvents (detect_failure_consume db job now) _ ?_
            exact InvC6_detect_failure_consume db job now h
      · split
        · refine InvC6_setPrinter _ _ _ ?_
          refine InvC6_setJob _ _ _
            (fun m hm => h.2.2.2 job (job_mem_of_findJob hj) m hm) ?_
          refine InvC6_withEvents (detect_failure_consume db job now) _ ?_
          exact InvC6_detect_failure_consume db job now h
        · refine InvC6_setJob _ _ _
            (fun m hm => h.2.2.2 job (job_mem_of_findJob hj) m hm) ?_
          refine InvC6_withEvents (detect_failure_consume db job now) _ ?_
          exact InvC6_detect_failure_consume db job now h
    · exact h

theorem InvC6_delete_job (db : DB) (jid : String) (h : InvC6 db) :
    InvC6 (delete_job db jid).1 := by
  unfold delete_job
  cases hj : findJob db jid with
  | none => exact h
  | some job =>
    dsimp only
    split
    · exact h
    · refine @InvC6_of_parts db _ rfl rfl ?_ h
      intro j hjm m hm
      exact h.2.2.2 j (List.mem_of_mem_filter hjm) m hm

theorem InvC6_resolve_alert (db : DB) (idx : Nat) (h : InvC6 db) :
    InvC6 (resolve_alert db idx).1 := by
  unfold resolve_alert
  cases ha : db.alerts.get? idx with
  | none => exact h
  | some a =>
    dsimp only
    obtain ⟨hded, hlow, hflag, hmat⟩ := h
    refine ⟨?_, ?_, hflag, hmat⟩
    · intro sid t
      unfold unresolvedCount
      dsimp only
      exact le_trans (countP_set_le db.alerts idx _ _ (by simp)) (hded sid t)
    · intro a2 ham hra hta
      dsimp only at ham
      rcases List.mem_or_eq_of_mem_set ham with h1 | h2
      · exact hlow a2 h1 hra hta
      · subst h2
        simp at hra

/-- The alert invariant is preserved by every coordinator operation whose
invocation satisfies the nonnegative-material side condition. -/
theorem InvC6_step (db : DB) (op : Op) (hg : nonnegMaterial db op) (h : InvC6 db) :
    InvC6 (applyOp db op) := by
  cases op with
  | createPrinter pid => exact InvC6_create_printer db pid h
  | createSpool sid mt t => exact InvC6_create_spool db sid mt t h
  | createJob pid jid est mg sid => exact InvC6_create_job db pid jid est mg sid hg h
  | startJob jid now => exact InvC6_start_job db jid now h
  | updateProgress jid p layer => exact InvC6_update_progress db jid p layer h
  | completeJob jid s now => exact InvC6_complete_job db jid s now h
  | detectFailure jid r path now => exact InvC6_detect_failure db jid r path now h
  | deleteJob jid => exact InvC6_delete_job db jid h
  | resolveAlert idx => exact InvC6_resolve_alert db idx h

theorem InvC6_reachable (db0 db : DB) (h0 : InvC6 db0)
    (hr : ReachableW nonnegMaterial db0 db) : InvC6 db := by
  induction hr with
  | refl => exact h0
  | step op hr hg ih => exact InvC6_step _ op hg ih

/-- C6 counterexample: the deduplication invariant is not maintained by the
unconstrained coordinator operations.  From the empty state, drain a spool
below the low-inventory threshold, re-inflate it through a job with a
negative declared material requirement (clearing the low flag without any
alert bookkeeping), and drain it again: `_create_inventory_alert` fires
unconditionally on each false-to-true transition, leaving two unresolved
`low_inventory` alerts for the same spool. -/
theorem C6_counterexample :
    ReachableW anyCall dbEmpty dbC6bad ∧ ¬ alertDedup dbC6bad := by
  constructor
  · exact ReachableW.step _ (ReachableW.step _ (ReachableW.step _ (ReachableW.step _
      (ReachableW.step _ (ReachableW.step _ (ReachableW.step _ (ReachableW.step _
      (ReachableW.refl dbEmpty) trivial) trivial) trivial) trivial) trivial) trivial)
      trivial) trivial
  · intro hded
    have h1 := hded "S" "low_inventory"
    have h2 : unresolvedCount dbC6bad "S" "low_inventory" = 2 := by
      with_unfolding_all decide
    omega

/-- C6 amended: in every state reachable through the coordinator operations
from a state satisfying the alert invariant, provided jobs are only created
with nonnegative declared material requirements, at most one unresolved
alert exists per (spool code, alert_type) pair, and `ensure_alert` is a
no-op whenever an unresolved alert of the same key already exists. -/
theorem C6_amended_dedup (db0 db : DB) (h0 : InvC6 db0)
    (hr : ReachableW nonnegMaterial db0 db) :
    alertDedup db ∧
    ∀ sid t msg tp cp, db.alerts.any (fun a =>
        a.spool_id == sid && a.alert_type == t && !a.is_resolved) = true →
      ensure_alert db sid t msg tp cp = db := by
  have hinv : InvC6 db := InvC6_reachable db0 db h0 hr
  refine ⟨hinv.1, ?_⟩
  intro sid t msg tp cp hany
  unfold ensure_alert
  rw [if_pos hany]

/-- C6 witness: the amended statement applied to the empty initial state
and a one-step trace creating a spool. -/
theorem C6_amended_witness :
    InvC6 dbEmpty ∧
    alertDedup (applyOp dbEmpty (.createSpool "S" "PLA" 1000)) := by
  have h0 : InvC6 dbEmpty := by
    refine ⟨?_, ?_, ?_, ?_⟩
    · intro sid t
      simp [unresolvedCount, dbEmpty]
    · intro a ham hra hta
      simp [dbEmpty] at ham
    · intro sp hsp
      simp [dbEmpty] at hsp
    · intro j hjm m hm
      simp [dbEmpty] at hjm
  exact ⟨h0, (C6_amended_dedup dbEmpty _ h0
    (ReachableW.step _ (ReachableW.refl dbEmpty) (by trivial))).1⟩

end Farm3D
